import Mathlib

/-!
Shallow embedding of the betterbankings amortization and bucketing engine
(`src/calculator.py`, `src/bucket.py`, `src/model.py`).

Modelling conventions:
  * Python floats are modelled by exact rationals (`ℚ`);
  * Python's `round(x, 2)` (round half to even) is modelled by `round2`;
  * `pandas.Timestamp` values are modelled by calendar triples
    (year, month, day) ordered lexicographically, which coincides with
    chronological order on valid dates;
  * `.days` differences of Timestamps are modelled via a day count
    (`rataDie`) built from the Gregorian month lengths of Python's
    `calendar` module;
  * raised `ValueError`s are modelled by `Except ScheduleError`;
  * pandas DataFrames of bucket results are modelled by association
    lists `List (String × ℚ)`; the flattened (`.to_frame().T`) versus
    tall layout is recorded by the `BucketFrame` constructor.
-/

namespace BB

attribute [local semireducible] Rat.mul Rat.add Rat.sub Rat.inv

/-- A calendar date (pandas `Timestamp`): year, month (1-12), day (1-31). -/
structure Date where
  year : ℕ
  month : ℕ
  day : ℕ
deriving DecidableEq

/-- `a <= b` on Timestamps: lexicographic on (year, month, day), which is
chronological order for valid dates. -/
def dateLeb (a b : Date) : Bool :=
  a.year < b.year ||
    (a.year = b.year && (a.month < b.month || (a.month = b.month && a.day ≤ b.day)))

/-- `a < b` on Timestamps: strict lexicographic order. -/
def dateLtb (a b : Date) : Bool :=
  a.year < b.year ||
    (a.year = b.year && (a.month < b.month || (a.month = b.month && a.day < b.day)))

/-- Gregorian leap-year test, as in Python's `calendar` module. -/
def isLeap (y : ℕ) : Bool := (y % 4 == 0 && y % 100 != 0) || y % 400 == 0

/-- `calendar.monthrange(y, m)[1]`: the number of days of month `m` of
year `y` (months outside 1..12 never occur in the engine). -/
def daysInMonth (y m : ℕ) : ℕ :=
  if m = 2 then (if isLeap y then 29 else 28)
  else if m = 4 ∨ m = 6 ∨ m = 9 ∨ m = 11 then 30
  else 31

/-- A date's month counted linearly (0-based): `year * 12 + (month - 1)`.
For months in 1..12 this encodes exactly the source's
`month += 1; if month > 12: month = 1; year += 1` carry arithmetic. -/
def monthIdx (d : Date) : ℕ := d.year * 12 + (d.month - 1)

/-- The candidate payment date emitted in linear month `idx`:
`day = min(anchor_day, last_day)` (calculator.py line 38). -/
def candidateDate (anchor idx : ℕ) : Date :=
  ⟨idx / 12, idx % 12 + 1, min anchor (daysInMonth (idx / 12) (idx % 12 + 1))⟩

/-- `Amortization.generate_payment_dates` (calculator.py lines 14-53).
The source's `while True: ... if d > end_date: break` loop walks the
monthly candidates from the start month and keeps those `≤ end_date`.
It is embedded as `takeWhile` over the candidate stream; the stream is
cut at linear month `monthIdx end_date + 1`, whose candidate is already
strictly beyond `end_date`, so the `takeWhile` always stops at the same
element where the source loop breaks. -/
def generate_payment_dates (reporting_date end_date : Date) : List Date :=
  let anchor := end_date.day
  let startIdx :=
    if anchor ≤ reporting_date.day then monthIdx reporting_date + 1
    else monthIdx reporting_date
  ((List.range (monthIdx end_date + 2 - startIdx)).map
      (fun k => candidateDate anchor (startIdx + k))).takeWhile
    (fun d => dateLeb d end_date)

/-- Python's `round` to the nearest integer, ties to even. -/
def roundHalfEven (q : ℚ) : ℤ :=
  if q - ⌊q⌋ < 1/2 then ⌊q⌋
  else if (1 : ℚ)/2 < q - ⌊q⌋ then ⌊q⌋ + 1
  else if ⌊q⌋ % 2 = 0 then ⌊q⌋ else ⌊q⌋ + 1

/-- Python's `round(q, 2)`. -/
def round2 (q : ℚ) : ℚ := (roundHalfEven (q * 100) : ℚ) / 100

/-- Python's `str.lower()` applied to the enum fields: per-character
lowercasing (the fields hold ASCII enum values). -/
def strToLower (s : String) : String := ⟨s.data.map Char.toLower⟩

/-- The loan record (`model.py`), restricted to the fields the engine
reads; the remaining constructor arguments (account id, currency,
product type, segment, region, postal code, insured flag, transactional
flag, start_date) are reporting metadata passed through unchanged and
never consulted by `Amortization`. -/
structure Loan where
  reporting_date : Date
  end_date : Date
  outstanding : ℚ
  interest_rate : ℚ
  installment : String
  method : String
deriving DecidableEq

/-- One row of the amortization table (calculator.py lines 121-128). -/
structure Row where
  period : ℕ
  payment_date : Date
  payment : ℚ
  principal : ℚ
  interest : ℚ
  remaining_balance : ℚ
deriving DecidableEq

/-- The two `ValueError`s `Amortization.schedule` can raise
(calculator.py lines 178 and 181). -/
inductive ScheduleError where
  | invalidMethod
  | invalidInstallmentFlag
deriving DecidableEq

/-- Bullet loop (calculator.py lines 104-130): interest only, full
principal at period `n`; carries the running balance `b` and the 1-based
period counter `i`. -/
def bulletAux (principal r : ℚ) (n : ℕ) (b : ℚ) (i : ℕ) : List Date → List Row
  | [] => []
  | d :: rest =>
    let principal_payment := if i = n then principal else 0
    let interest := principal * r
    let payment := principal_payment + interest
    let b2 := b - principal_payment
    { period := i, payment_date := d, payment := round2 payment,
      principal := round2 principal_payment, interest := round2 interest,
      remaining_balance := round2 (max b2 0) } :: bulletAux principal r n b2 (i + 1) rest

/-- `npf.pmt(r, periods, -principal) if r != 0 else principal / periods`
(calculator.py line 140): the standard annuity payment. -/
def schedulePmt (r : ℚ) (periods : ℕ) (principal : ℚ) : ℚ :=
  if r ≠ 0 then principal * r * (1 + r) ^ periods / ((1 + r) ^ periods - 1)
  else principal / periods

/-- Annuity loop (calculator.py lines 142-155); carries the running
balance `b` and the 1-based period counter `i`. -/
def annuityAux (pmt r : ℚ) (b : ℚ) (i : ℕ) : List Date → List Row
  | [] => []
  | d :: rest =>
    let interest := b * r
    let principal_payment := pmt - interest
    let b2 := b - principal_payment
    { period := i, payment_date := d, payment := round2 pmt,
      principal := round2 principal_payment, interest := round2 interest,
      remaining_balance := round2 (max b2 0) } :: annuityAux pmt r b2 (i + 1) rest

/-- Flat loop (calculator.py lines 164-175); carries the running balance
`b` and the 1-based period counter `i`. -/
def flatAux (monthly_principal monthly_interest : ℚ) (b : ℚ) (i : ℕ) :
    List Date → List Row
  | [] => []
  | d :: rest =>
    let b2 := b - monthly_principal
    { period := i, payment_date := d,
      payment := round2 (monthly_principal + monthly_interest),
      principal := round2 monthly_principal, interest := round2 monthly_interest,
      remaining_balance := round2 (max b2 0) } :: flatAux monthly_principal monthly_interest b2 (i + 1) rest

/-- `Amortization.schedule` (calculator.py lines 77-183). -/
def schedule (loan : Loan) : Except ScheduleError (List Row) :=
  let principal := loan.outstanding
  let annual_rate := loan.interest_rate
  let method := strToLower loan.method
  let installment := strToLower loan.installment
  let payment_dates := generate_payment_dates loan.reporting_date loan.end_date
  let periods := payment_dates.length
  if dateLeb loan.end_date loan.reporting_date then Except.ok []
  else
    let r := annual_rate / 12
    if installment = "no" then
      Except.ok (bulletAux principal r periods principal 1 payment_dates)
    else if installment = "yes" then
      if method = "annuity" then
        Except.ok (annuityAux (schedulePmt r periods principal) r principal 1 payment_dates)
      else if method = "flat" then
        Except.ok (flatAux (principal / periods) (principal * r) principal 1 payment_dates)
      else Except.error ScheduleError.invalidMethod
    else Except.error ScheduleError.invalidInstallmentFlag

/-- Number of leap years in `1..n`. -/
def leapDays (n : ℕ) : ℕ := n / 4 - n / 100 + n / 400

/-- Days in months `1..m-1` of year `y`. -/
def daysBeforeMonth (y m : ℕ) : ℕ :=
  ((List.range (m - 1)).map (fun i => daysInMonth y (i + 1))).sum

/-- Proleptic-Gregorian day number of a date; Timestamp subtraction
`.days` is the difference of day numbers. -/
def rataDie (d : Date) : ℕ :=
  365 * (d.year - 1) + leapDays (d.year - 1) + daysBeforeMonth d.year d.month + d.day

/-- `(a - b).days` on Timestamps. -/
def dayDiff (a b : Date) : ℤ := (rataDie a : ℤ) - (rataDie b : ℤ)

/-- `(a.year - b.year) * 12 + (a.month - b.month)`: the calendar-month
difference used by the IRRBB and NSFR classifiers. -/
def monthsDiff (a b : Date) : ℤ :=
  ((a.year : ℤ) - (b.year : ℤ)) * 12 + ((a.month : ℤ) - (b.month : ℤ))

/-- `BucketIRRBB.MONTH_LABELS` (bucket.py lines 14-32). -/
def MONTH_LABELS : List String :=
  ["1-3 bulan", "3-6 bulan", "6-9 bulan", "9-12 bulan",
   "1-1.5Y", "1.5-2Y", "2-3Y", "3-4Y", "4-5Y", "5-6Y", "6-7Y", "7-8Y",
   "8-9Y", "9-10Y", "10-15Y", "15-20Y", "> 20Y"]

/-- Interval lookup of `pd.cut(..., right=True)`: given the previous bin
edge `lo`, assign `m` to the first right-closed interval `(lo, hi]` (or
`(lo, ∞)` for an upper edge of `np.inf`, encoded `none`); values beyond
every bin give `none` (pandas `NaN`). -/
def cutBins (m : ℤ) : ℤ → List (Option ℤ × String) → Option String
  | _, [] => none
  | lo, (some hi, lab) :: rest =>
    if lo < m ∧ m ≤ hi then some lab else cutBins m hi rest
  | lo, (none, lab) :: _ => if lo < m then some lab else none

/-- The IRRBB bins after the first one: upper edges
`6, 9, 12, 18, 24, 36, 48, 60, 72, 84, 96, 108, 120, 180, 240, np.inf`
paired with labels 2..17 (`BucketIRRBB.MONTH_EDGES` / `MONTH_LABELS`,
bucket.py lines 7-32). -/
def MONTH_BINS : List (Option ℤ × String) :=
  [(some 6, "3-6 bulan"), (some 9, "6-9 bulan"), (some 12, "9-12 bulan"),
   (some 18, "1-1.5Y"), (some 24, "1.5-2Y"), (some 36, "2-3Y"),
   (some 48, "3-4Y"), (some 60, "4-5Y"), (some 72, "5-6Y"),
   (some 84, "6-7Y"), (some 96, "7-8Y"), (some 108, "8-9Y"),
   (some 120, "9-10Y"), (some 180, "10-15Y"), (some 240, "15-20Y"),
   (none, "> 20Y")]

/-- `pd.cut(m, bins=BucketIRRBB.MONTH_EDGES, labels=BucketIRRBB.MONTH_LABELS,
right=True, include_lowest=il)`: the first interval is `[1, 3]` when
`include_lowest` is set (as in the aggregation path) and `(1, 3]` with
the pandas default (as in `BucketIRRBB.get_bucket`); the remaining
intervals `(3, 6], ..., (240, ∞)` are looked up in `MONTH_BINS`. -/
def cutMonth (include_lowest : Bool) (m : ℤ) : Option String :=
  if (if include_lowest then 1 ≤ m else 1 < m) ∧ m ≤ 3 then some "1-3 bulan"
  else cutBins m 3 MONTH_BINS

/-- The inline IRRBB bucket of one schedule row (calculator.py lines
212-225): day-based first bucket, then `pd.cut(..., right=True,
include_lowest=True)`; a `NaN` cut result is stringified by
`.astype(str)` to `"nan"`. -/
def irrbbRowBucket (pay ref : Date) : String :=
  if dayDiff pay ref ≤ 30 then "≤ 1 bulan"
  else (cutMonth true (monthsDiff pay ref)).getD "nan"

/-- The standalone `BucketIRRBB.get_bucket` (bucket.py lines 51-63):
same day-based first bucket, but `pd.cut` with its defaults — in
particular without `include_lowest` — and a `NaN` result is returned
as-is (`none`). -/
def bucketIRRBB_get_bucket (start_date end_date : Date) : Option String :=
  if dayDiff end_date start_date ≤ 30 then some "≤ 1 bulan"
  else cutMonth false (monthsDiff end_date start_date)

/-- The LCR bucket of one row (calculator.py lines 271-275). -/
def lcrBucket (pay ref : Date) : String :=
  if dayDiff pay ref ≤ 30 then "≤30D" else ">30D"

/-- The NSFR bucket of one row (calculator.py lines 324-336): the three
`np.select` conditions are exhaustive and the default is also `">12M"`. -/
def nsfrBucket (pay ref : Date) : String :=
  if monthsDiff pay ref < 6 then "<6M"
  else if monthsDiff pay ref ≤ 12 then "6-12M"
  else ">12M"

/-- Value selection shared by the tall bucket functions (calculator.py
lines 230-235, 280-285, 341-346): anything other than `"principal"` or
`"interest"` selects the total. -/
def valueSelect (value_type : String) (row : Row) : ℚ :=
  if value_type = "principal" then row.principal
  else if value_type = "interest" then row.interest
  else row.principal + row.interest

/-- `groupby(bucket).sum().reindex(labels, fill_value=0)`: for each
canonical label, the sum of the values of the rows grouped under it;
absent labels get 0, groups outside the canonical set are dropped. -/
def tallAgg (labels : List String) (pairs : List (String × ℚ)) : List (String × ℚ) :=
  labels.map (fun lab => (lab, ((pairs.filter (fun x => x.1 = lab)).map (fun x => x.2)).sum))

/-- All 18 IRRBB labels (calculator.py line 240). -/
def irrbbAllLabels : List String := "≤ 1 bulan" :: MONTH_LABELS

/-- The LCR labels (calculator.py line 290). -/
def lcrLabels : List String := ["≤30D", ">30D"]

/-- The NSFR labels (calculator.py line 330). -/
def nsfrLabels : List String := ["<6M", "6-12M", ">12M"]

/-- `Amortization._empty_bucket_result` (calculator.py lines 55-72) for a
given label set: every canonical label mapped to 0, in tall layout. -/
def emptyBucketResult (labels : List String) : List (String × ℚ) :=
  labels.map (fun lab => (lab, 0))

/-- A bucket DataFrame together with its layout: `tall` is the
`{bucket, value}`-per-row layout, `flat` the `.to_frame().T` one-row
layout with one column per label. -/
inductive BucketFrame where
  | tall (rows : List (String × ℚ))
  | flat (cols : List (String × ℚ))
deriving DecidableEq

/-- Whether a bucket result is in the flattened one-row layout. -/
def BucketFrame.isFlat : BucketFrame → Bool
  | .tall _ => false
  | .flat _ => true

/-- `Amortization.get_bucket_irrbb` (calculator.py lines 190-249). -/
def get_bucket_irrbb (loan : Loan) (value_type : String) :
    Except ScheduleError (List (String × ℚ)) :=
  match schedule loan with
  | .error e => .error e
  | .ok rows =>
    if rows = [] then .ok (emptyBucketResult irrbbAllLabels)
    else .ok (tallAgg irrbbAllLabels (rows.map
        (fun row => (irrbbRowBucket row.payment_date loan.reporting_date,
                     valueSelect value_type row))))

/-- `Amortization.get_bucket_lcr` (calculator.py lines 254-299). -/
def get_bucket_lcr (loan : Loan) (value_type : String) :
    Except ScheduleError (List (String × ℚ)) :=
  match schedule loan with
  | .error e => .error e
  | .ok rows =>
    if rows = [] then .ok (emptyBucketResult lcrLabels)
    else .ok (tallAgg lcrLabels (rows.map
        (fun row => (lcrBucket row.payment_date loan.reporting_date,
                     valueSelect value_type row))))

/-- `Amortization.get_bucket_nsfr` (calculator.py lines 304-358). -/
def get_bucket_nsfr (loan : Loan) (value_type : String) :
    Except ScheduleError (List (String × ℚ)) :=
  match schedule loan with
  | .error e => .error e
  | .ok rows =>
    if rows = [] then .ok (emptyBucketResult nsfrLabels)
    else .ok (tallAgg nsfrLabels (rows.map
        (fun row => (nsfrBucket row.payment_date loan.reporting_date,
                     valueSelect value_type row))))

/-- `Amortization.get_bucket_irrbb_flat` (calculator.py lines 362-410):
plain value selection, flattened layout; on an empty schedule it
returns `_empty_bucket_result`, which is in tall layout. -/
def get_bucket_irrbb_flat (loan : Loan) (value_type : String) :
    Except ScheduleError BucketFrame :=
  match schedule loan with
  | .error e => .error e
  | .ok rows =>
    if rows = [] then .ok (.tall (emptyBucketResult irrbbAllLabels))
    else .ok (.flat (tallAgg irrbbAllLabels (rows.map
        (fun row => (irrbbRowBucket row.payment_date loan.reporting_date,
                     valueSelect value_type row)))))

/-- `Amortization.get_bucket_lcr_flat` (calculator.py lines 413-452):
for `value_type = "interest"` the interest of `">30D"` rows is zeroed
(lines 428-433); for the total the interest part is likewise zeroed on
`">30D"` rows (lines 435-440); on an empty schedule it returns
`_empty_bucket_result`, which is in tall layout. -/
def get_bucket_lcr_flat (loan : Loan) (value_type : String) :
    Except ScheduleError BucketFrame :=
  match schedule loan with
  | .error e => .error e
  | .ok rows =>
    if rows = [] then .ok (.tall (emptyBucketResult lcrLabels))
    else .ok (.flat (tallAgg lcrLabels (rows.map (fun row =>
        let bucket := lcrBucket row.payment_date loan.reporting_date
        (bucket,
          if value_type = "principal" then row.principal
          else if value_type = "interest" then
            (if bucket = "≤30D" then row.interest else 0)
          else row.principal + (if bucket = "≤30D" then row.interest else 0))))))

/-- `Amortization.get_bucket_nsfr_flat` (calculator.py lines 455-495):
for `value_type = "interest"` every row's value is the constant 0
(line 483); on an empty schedule it returns `_empty_bucket_result`,
which is in tall layout. -/
def get_bucket_nsfr_flat (loan : Loan) (value_type : String) :
    Except ScheduleError BucketFrame :=
  match schedule loan with
  | .error e => .error e
  | .ok rows =>
    if rows = [] then .ok (.tall (emptyBucketResult nsfrLabels))
    else .ok (.flat (tallAgg nsfrLabels (rows.map (fun row =>
        (nsfrBucket row.payment_date loan.reporting_date,
          if value_type = "principal" then row.principal
          else if value_type = "interest" then 0
          else row.principal + row.interest)))))

/-- A date actually representable as a pandas Timestamp: month in 1..12,
day within the month. -/
def ValidDate (d : Date) : Prop :=
  1 ≤ d.month ∧ d.month ≤ 12 ∧ 1 ≤ d.day ∧ d.day ≤ daysInMonth d.year d.month

instance (d : Date) : Decidable (ValidDate d) := by
  unfold ValidDate; infer_instance

instance {ε α : Type} [DecidableEq ε] [DecidableEq α] : DecidableEq (Except ε α)
  | .ok x, .ok y => decidable_of_iff (x = y) (by simp)
  | .error x, .error y => decidable_of_iff (x = y) (by simp)
  | .ok _, .error _ => isFalse (by simp)
  | .error _, .ok _ => isFalse (by simp)

/-! ### Helper lemmas -/

lemma round2_zero : round2 0 = 0 := by
  norm_num [round2, roundHalfEven]

lemma daysInMonth_le_31 (y m : ℕ) : daysInMonth y m ≤ 31 := by
  unfold daysInMonth
  split_ifs <;> norm_num

lemma cutBins_mem (m : ℤ) :
    ∀ (bins : List (Option ℤ × String)) (lo : ℤ) (lab : String),
      cutBins m lo bins = some lab → lab ∈ bins.map (fun x => x.2)
  | [], lo, lab => by intro h; simp [cutBins] at h
  | (some hi, s) :: rest, lo, lab => by
    intro h
    simp only [cutBins] at h
    by_cases hc : lo < m ∧ m ≤ hi
    · rw [if_pos hc] at h
      simp only [Option.some.injEq] at h
      simp [h]
    · rw [if_neg hc] at h
      have hrec := cutBins_mem m rest hi lab h
      simp only [List.map_cons, List.mem_cons]
      exact Or.inr hrec
  | (none, s) :: rest, lo, lab => by
    intro h
    simp only [cutBins] at h
    by_cases hc : lo < m
    · rw [if_pos hc] at h
      simp only [Option.some.injEq] at h
      simp [h]
    · rw [if_neg hc] at h
      simp at h

/-- Whether a bins list closes with an unbounded `(lo, ∞)` interval. -/
def endsUnbounded : List (Option ℤ × String) → Bool
  | [] => false
  | [(b, _)] => b.isNone
  | _ :: rest => endsUnbounded rest

lemma cutBins_covers (m : ℤ) :
    ∀ (bins : List (Option ℤ × String)) (lo : ℤ),
      endsUnbounded bins = true → lo < m → ∃ lab, cutBins m lo bins = some lab
  | [], lo => by intro he _; simp [endsUnbounded] at he
  | [(some hi, s)], lo => by intro he _; simp [endsUnbounded] at he
  | [(none, s)], lo => by
    intro _ hlo
    exact ⟨s, by simp [cutBins, hlo]⟩
  | (some hi, s) :: x :: rest, lo => by
    intro he hlo
    have he2 : endsUnbounded (x :: rest) = true := he
    by_cases hc : m ≤ hi
    · exact ⟨s, by simp [cutBins, hlo, hc]⟩
    · obtain ⟨lab, hl⟩ := cutBins_covers m (x :: rest) hi he2 (by omega)
      refine ⟨lab, ?_⟩
      simp only [cutBins]
      rw [if_neg (by omega), hl]
  | (none, s) :: x :: rest, lo => by
    intro _ hlo
    exact ⟨s, by simp [cutBins, hlo]⟩

lemma MONTH_BINS_snd : MONTH_BINS.map (fun x => x.2) = MONTH_LABELS.tail := by
  decide

lemma cutMonth_ne_le1bulan (il : Bool) (m : ℤ) :
    cutMonth il m ≠ some "≤ 1 bulan" := by
  unfold cutMonth
  by_cases hc : (if il = true then 1 ≤ m else 1 < m) ∧ m ≤ 3
  · rw [if_pos hc]; simp
  · rw [if_neg hc]
    intro h
    have hmem := cutBins_mem m MONTH_BINS 3 _ h
    rw [MONTH_BINS_snd] at hmem
    revert hmem
    decide

lemma cutMonth_mem (il : Bool) (m : ℤ) (lab : String)
    (h : cutMonth il m = some lab) : lab ∈ MONTH_LABELS := by
  unfold cutMonth at h
  by_cases hc : (if il = true then 1 ≤ m else 1 < m) ∧ m ≤ 3
  · rw [if_pos hc] at h
    simp only [Option.some.injEq] at h
    rw [← h]
    decide
  · rw [if_neg hc] at h
    have hmem := cutBins_mem m MONTH_BINS 3 _ h
    rw [MONTH_BINS_snd] at hmem
    exact List.mem_of_mem_tail hmem

lemma cutMonth_true_covers (m : ℤ) (hm : 1 ≤ m) :
    ∃ lab, cutMonth true m = some lab := by
  unfold cutMonth
  by_cases hc : m ≤ 3
  · exact ⟨"1-3 bulan", by rw [if_pos (by simp [hm, hc])]⟩
  · obtain ⟨lab, hl⟩ := cutBins_covers m MONTH_BINS 3 (by decide) (by omega)
    refine ⟨lab, ?_⟩
    rw [if_neg (by simp [hc]), hl]

lemma cutMonth_false_eq_true (m : ℤ) (hm : m ≠ 1) :
    cutMonth false m = cutMonth true m := by
  unfold cutMonth
  have hfalse : ((if (false : Bool) = true then 1 ≤ m else 1 < m) ∧ m ≤ 3) ↔
      (1 < m ∧ m ≤ 3) := by simp
  have htrue : ((if (true : Bool) = true then 1 ≤ m else 1 < m) ∧ m ≤ 3) ↔
      (1 ≤ m ∧ m ≤ 3) := by simp
  have hmid : ((1 : ℤ) < m ∧ m ≤ 3) ↔ ((1 : ℤ) ≤ m ∧ m ≤ 3) := by omega
  rw [if_congr (hfalse.trans (hmid.trans htrue.symm)) rfl rfl]

lemma takeWhile_eq_take {α : Type} (p : α → Bool) :
    ∀ l : List α, l.takeWhile p = l.take (l.takeWhile p).length
  | [] => rfl
  | a :: l => by
    by_cases hp : p a = true
    · simp only [List.takeWhile_cons_of_pos hp, List.length_cons, List.take_succ_cons]
      exact congrArg (a :: ·) (takeWhile_eq_take p l)
    · simp [List.takeWhile_cons_of_neg hp]

lemma takeWhile_get {α : Type} (p : α → Bool) (l : List α) (i : ℕ)
    (h : i < (l.takeWhile p).length) :
    ∃ h2 : i < l.length,
      (l.takeWhile p).get ⟨i, h⟩ = l.get ⟨i, h2⟩ ∧ p (l.get ⟨i, h2⟩) = true := by
  have hle : (l.takeWhile p).length ≤ l.length := (List.takeWhile_sublist p).length_le
  have h2 : i < l.length := lt_of_lt_of_le h hle
  have heq : (l.takeWhile p).get ⟨i, h⟩ = l.get ⟨i, h2⟩ := by
    rw [List.get_eq_getElem, List.get_eq_getElem]
    rw [List.getElem_of_eq (takeWhile_eq_take p l) h]
    exact List.getElem_take l
  refine ⟨h2, heq, ?_⟩
  have hmem : l.get ⟨i, h2⟩ ∈ l.takeWhile p := heq ▸ List.get_mem _ _ _
  exact List.mem_takeWhile_imp hmem

lemma bulletAux_length (principal r : ℚ) (n : ℕ) :
    ∀ (dates : List Date) (b : ℚ) (i : ℕ),
      (bulletAux principal r n b i dates).length = dates.length
  | [], _, _ => rfl
  | _ :: rest, b, i => by
    simp [bulletAux, bulletAux_length principal r n rest]

lemma annuityAux_length (pmt r : ℚ) :
    ∀ (dates : List Date) (b : ℚ) (i : ℕ),
      (annuityAux pmt r b i dates).length = dates.length
  | [], _, _ => rfl
  | _ :: rest, b, i => by
    simp [annuityAux, annuityAux_length pmt r rest]

lemma flatAux_length (mp mi : ℚ) :
    ∀ (dates : List Date) (b : ℚ) (i : ℕ),
      (flatAux mp mi b i dates).length = dates.length
  | [], _, _ => rfl
  | _ :: rest, b, i => by
    simp [flatAux, flatAux_length mp mi rest]

lemma bulletAux_map_dates (principal r : ℚ) (n : ℕ) :
    ∀ (dates : List Date) (b : ℚ) (i : ℕ),
      (bulletAux principal r n b i dates).map (fun row => row.payment_date) = dates
  | [], _, _ => rfl
  | _ :: rest, b, i => by
    simp [bulletAux, bulletAux_map_dates principal r n rest]

lemma annuityAux_map_dates (pmt r : ℚ) :
    ∀ (dates : List Date) (b : ℚ) (i : ℕ),
      (annuityAux pmt r b i dates).map (fun row => row.payment_date) = dates
  | [], _, _ => rfl
  | _ :: rest, b, i => by
    simp [annuityAux, annuityAux_map_dates pmt r rest]

lemma bulletAux_get (principal r : ℚ) (n : ℕ) :
    ∀ (dates : List Date) (b : ℚ) (i : ℕ), i + dates.length = n + 1 →
      ∀ (k : ℕ) (hk : k < dates.length),
        (bulletAux principal r n b i dates).get
            ⟨k, by rw [bulletAux_length]; exact hk⟩ =
          { period := i + k, payment_date := dates.get ⟨k, hk⟩,
            payment := round2 ((if i + k = n then principal else 0) + principal * r),
            principal := round2 (if i + k = n then principal else 0),
            interest := round2 (principal * r),
            remaining_balance :=
              round2 (max (if i + k = n then b - principal else b) 0) }
  | [], b, i => by intro _ k hk; simp at hk
  | d :: rest, b, i => by
    intro hinv k hk
    cases k with
    | zero =>
      simp only [bulletAux, List.get_cons_zero, Nat.add_zero, List.get]
      congr 1
      split <;> ring_nf
    | succ k =>
      have hkr : k < rest.length := by simpa using hk
      have hin : i ≠ n := by
        simp only [List.length_cons] at hinv
        omega
      have hrec := bulletAux_get principal r n rest
        (b - (if i = n then principal else 0)) (i + 1) (by
          simp only [List.length_cons] at hinv
          omega) k hkr
      simp only [bulletAux, List.get_cons_succ, List.get]
      rw [hrec]
      have harith : i + 1 + k = i + (k + 1) := by omega
      simp only [if_neg hin, sub_zero, harith]

/-- The running balance of the annuity loop after `k` iterations. -/
def annuityBalance (pmt r b : ℚ) : ℕ → ℚ
  | 0 => b
  | k + 1 => annuityBalance pmt r b k - (pmt - annuityBalance pmt r b k * r)

lemma annuityBalance_step (pmt r b : ℚ) :
    ∀ k : ℕ, annuityBalance pmt r (b - (pmt - b * r)) k = annuityBalance pmt r b (k + 1)
  | 0 => rfl
  | k + 1 => by
    simp only [annuityBalance, annuityBalance_step pmt r b k]

lemma annuityAux_get (pmt r : ℚ) :
    ∀ (dates : List Date) (b : ℚ) (i : ℕ) (k : ℕ) (hk : k < dates.length),
      (annuityAux pmt r b i dates).get ⟨k, by rw [annuityAux_length]; exact hk⟩ =
        { period := i + k, payment_date := dates.get ⟨k, hk⟩,
          payment := round2 pmt,
          principal := round2 (pmt - annuityBalance pmt r b k * r),
          interest := round2 (annuityBalance pmt r b k * r),
          remaining_balance := round2 (max (annuityBalance pmt r b (k + 1)) 0) }
  | [], b, i, k => by intro hk; simp at hk
  | d :: rest, b, i, k => by
    intro hk
    cases k with
    | zero =>
      simp only [annuityAux, List.get_cons_zero, Nat.add_zero, List.get]
      congr 1
    | succ k =>
      have hkr : k < rest.length := by simpa using hk
      have hrec := annuityAux_get pmt r rest (b - (pmt - b * r)) (i + 1) k hkr
      simp only [annuityAux, List.get_cons_succ, List.get]
      rw [hrec]
      have harith : i + 1 + k = i + (k + 1) := by omega
      simp only [annuityBalance_step, harith]

lemma flatAux_get (mp mi : ℚ) :
    ∀ (dates : List Date) (b : ℚ) (i : ℕ) (k : ℕ) (hk : k < dates.length),
      (flatAux mp mi b i dates).get ⟨k, by rw [flatAux_length]; exact hk⟩ =
        { period := i + k, payment_date := dates.get ⟨k, hk⟩,
          payment := round2 (mp + mi), principal := round2 mp, interest := round2 mi,
          remaining_balance := round2 (max (b - ((k : ℚ) + 1) * mp) 0) }
  | [], b, i, k => by intro hk; simp at hk
  | d :: rest, b, i, k => by
    intro hk
    cases k with
    | zero =>
      simp only [flatAux, List.get_cons_zero, Nat.add_zero, List.get]
      congr 1
      have hbal0 : b - mp = b - (((0 : ℕ) : ℚ) + 1) * mp := by
        norm_num
      rw [← hbal0]
    | succ k =>
      have hkr : k < rest.length := by simpa using hk
      have hrec := flatAux_get mp mi rest (b - mp) (i + 1) k hkr
      simp only [flatAux, List.get_cons_succ, List.get]
      rw [hrec]
      have harith : i + 1 + k = i + (k + 1) := by omega
      have hbal : b - mp - ((k : ℚ) + 1) * mp = b - (((k + 1 : ℕ) : ℚ) + 1) * mp := by
        push_cast
        ring_nf
      simp only [harith, hbal]

lemma flatAux_map_dates (mp mi : ℚ) :
    ∀ (dates : List Date) (b : ℚ) (i : ℕ),
      (flatAux mp mi b i dates).map (fun row => row.payment_date) = dates
  | [], _, _ => rfl
  | _ :: rest, b, i => by
    simp [flatAux, flatAux_map_dates mp mi rest]

lemma candidateDate_monthIdx (anchor idx : ℕ) :
    monthIdx (candidateDate anchor idx) = idx := by
  simp only [candidateDate, monthIdx]
  omega

lemma candidateDate_month_bounds (anchor idx : ℕ) :
    1 ≤ (candidateDate anchor idx).month ∧ (candidateDate anchor idx).month ≤ 12 := by
  simp only [candidateDate]
  omega

lemma candidateDate_lt_next (anchor idx : ℕ) :
    dateLtb (candidateDate anchor idx) (candidateDate anchor (idx + 1)) = true := by
  simp only [dateLtb, candidateDate, Bool.or_eq_true, Bool.and_eq_true, decide_eq_true_eq]
  by_cases hm : idx % 12 = 11
  · exact Or.inl (by omega)
  · exact Or.inr ⟨by omega, Or.inl (by omega)⟩

lemma generate_get (rep e : Date) (k : ℕ)
    (hk : k < (generate_payment_dates rep e).length) :
    (generate_payment_dates rep e).get ⟨k, hk⟩ =
      candidateDate e.day
        ((if e.day ≤ rep.day then monthIdx rep + 1 else monthIdx rep) + k) ∧
    dateLeb ((generate_payment_dates rep e).get ⟨k, hk⟩) e = true := by
  obtain ⟨h2, heq, hp⟩ := takeWhile_get (fun d => dateLeb d e)
    ((List.range (monthIdx e + 2 -
        (if e.day ≤ rep.day then monthIdx rep + 1 else monthIdx rep))).map
      (fun j => candidateDate e.day
        ((if e.day ≤ rep.day then monthIdx rep + 1 else monthIdx rep) + j))) k hk
  have hval : ((List.range (monthIdx e + 2 -
        (if e.day ≤ rep.day then monthIdx rep + 1 else monthIdx rep))).map
      (fun j => candidateDate e.day
        ((if e.day ≤ rep.day then monthIdx rep + 1 else monthIdx rep) + j))).get ⟨k, h2⟩ =
      candidateDate e.day
        ((if e.day ≤ rep.day then monthIdx rep + 1 else monthIdx rep) + k) := by
    rw [List.get_eq_getElem, List.getElem_map, List.getElem_range]
  have hcand : (generate_payment_dates rep e).get ⟨k, hk⟩ =
      candidateDate e.day
        ((if e.day ≤ rep.day then monthIdx rep + 1 else monthIdx rep) + k) :=
    heq.trans hval
  refine ⟨hcand, ?_⟩
  rw [hcand]
  rw [hval] at hp
  exact hp

lemma generate_mem (rep e : Date) (d : Date)
    (hd : d ∈ generate_payment_dates rep e) :
    (∃ idx, monthIdx rep ≤ idx ∧ d = candidateDate e.day idx) ∧
      dateLeb d e = true := by
  have hp := List.mem_takeWhile_imp hd
  have hsub := (List.takeWhile_sublist (fun x => dateLeb x e)).subset hd
  simp only [List.mem_map, List.mem_range] at hsub
  obtain ⟨k, _, hcd⟩ := hsub
  refine ⟨⟨(if e.day ≤ rep.day then monthIdx rep + 1 else monthIdx rep) + k,
    ?_, hcd.symm⟩, hp⟩
  split <;> omega

lemma schedule_empty (loan : Loan)
    (hd : dateLeb loan.end_date loan.reporting_date = true) :
    schedule loan = .ok [] := by
  simp [schedule, hd]

lemma schedule_bullet (loan : Loan)
    (hd : dateLeb loan.end_date loan.reporting_date = false)
    (hinst : strToLower loan.installment = "no") :
    schedule loan = .ok (bulletAux loan.outstanding (loan.interest_rate / 12)
      (generate_payment_dates loan.reporting_date loan.end_date).length
      loan.outstanding 1
      (generate_payment_dates loan.reporting_date loan.end_date)) := by
  simp [schedule, hd, hinst]

lemma schedule_annuity (loan : Loan)
    (hd : dateLeb loan.end_date loan.reporting_date = false)
    (hinst : strToLower loan.installment = "yes")
    (hmeth : strToLower loan.method = "annuity") :
    schedule loan = .ok (annuityAux
      (schedulePmt (loan.interest_rate / 12)
        (generate_payment_dates loan.reporting_date loan.end_date).length
        loan.outstanding)
      (loan.interest_rate / 12) loan.outstanding 1
      (generate_payment_dates loan.reporting_date loan.end_date)) := by
  simp [schedule, hd, hinst, hmeth]

lemma schedule_flat (loan : Loan)
    (hd : dateLeb loan.end_date loan.reporting_date = false)
    (hinst : strToLower loan.installment = "yes")
    (hmeth : strToLower loan.method = "flat") :
    schedule loan = .ok (flatAux
      (loan.outstanding /
        (generate_payment_dates loan.reporting_date loan.end_date).length)
      (loan.outstanding * (loan.interest_rate / 12)) loan.outstanding 1
      (generate_payment_dates loan.reporting_date loan.end_date)) := by
  simp [schedule, hd, hinst, hmeth]

lemma schedule_payment_dates (loan : Loan) (rows : List Row)
    (h : schedule loan = .ok rows) :
    ∀ row ∈ rows,
      row.payment_date ∈ generate_payment_dates loan.reporting_date loan.end_date := by
  intro row hrow
  by_cases hd : dateLeb loan.end_date loan.reporting_date = true
  · rw [schedule_empty loan hd] at h
    simp only [Except.ok.injEq] at h
    rw [← h] at hrow
    simp at hrow
  · have hd2 : dateLeb loan.end_date loan.reporting_date = false := by
      simpa using hd
    have hmem : row.payment_date ∈ rows.map (fun x => x.payment_date) :=
      List.mem_map_of_mem _ hrow
    by_cases hno : strToLower loan.installment = "no"
    · rw [schedule_bullet loan hd2 hno] at h
      simp only [Except.ok.injEq] at h
      rw [← h, bulletAux_map_dates] at hmem
      exact hmem
    · by_cases hyes : strToLower loan.installment = "yes"
      · by_cases hann : strToLower loan.method = "annuity"
        · rw [schedule_annuity loan hd2 hyes hann] at h
          simp only [Except.ok.injEq] at h
          rw [← h, annuityAux_map_dates] at hmem
          exact hmem
        · by_cases hflat : strToLower loan.method = "flat"
          · rw [schedule_flat loan hd2 hyes hflat] at h
            simp only [Except.ok.injEq] at h
            rw [← h, flatAux_map_dates] at hmem
            exact hmem
          · rw [show schedule loan = .error ScheduleError.invalidMethod from by
              simp [schedule, hd2, hno, hyes, hann, hflat]] at h
            exact absurd h (by simp)
      · rw [show schedule loan = .error ScheduleError.invalidInstallmentFlag from by
          simp [schedule, hd2, hno, hyes]] at h
        exact absurd h (by simp)

lemma sum_map_ite_zero (s : String) (v : ℚ) :
    ∀ labels : List String, s ∉ labels →
      (labels.map (fun lab => if s = lab then v else 0)).sum = 0
  | [] => by simp
  | l :: rest => by
    intro h
    have h1 : s ≠ l := fun he => h (by simp [he])
    have h2 : s ∉ rest := fun he => h (by simp [he])
    simp only [List.map_cons, List.sum_cons]
    rw [if_neg h1, sum_map_ite_zero s v rest h2]
    ring

lemma sum_map_ite_single (s : String) (v : ℚ) :
    ∀ labels : List String, labels.Nodup → s ∈ labels →
      (labels.map (fun lab => if s = lab then v else 0)).sum = v
  | [] => by intro _ h; simp at h
  | l :: rest => by
    intro hnd hmem
    simp only [List.map_cons, List.sum_cons]
    by_cases he : s = l
    · rw [if_pos he]
      have hout : s ∉ rest := by
        rw [he]
        exact (List.nodup_cons.mp hnd).1
      rw [sum_map_ite_zero s v rest hout]
      ring
    · rw [if_neg he]
      have hmem2 : s ∈ rest := by
        rcases List.mem_cons.mp hmem with h | h
        · exact absurd h he
        · exact h
      rw [sum_map_ite_single s v rest (List.nodup_cons.mp hnd).2 hmem2]
      ring

/-- `groupby(...).sum().reindex(labels)` loses nothing when every group
key is a canonical label: the bucket totals add up to the row total. -/
lemma tallAgg_sum (labels : List String) :
    ∀ pairs : List (String × ℚ), labels.Nodup →
      (∀ x ∈ pairs, x.1 ∈ labels) →
      ((tallAgg labels pairs).map (fun x => x.2)).sum =
        (pairs.map (fun x => x.2)).sum
  | [] => by
    intro _ _
    simp only [tallAgg, List.filter_nil, List.map_nil, List.sum_nil, List.map_map]
    exact List.sum_eq_zero (by simp)
  | x :: rest => by
    intro hnd hcov
    have hstep : ∀ lab : String,
        (((x :: rest).filter (fun y => y.1 = lab)).map (fun y => y.2)).sum =
          (if x.1 = lab then x.2 else 0) +
            ((rest.filter (fun y => y.1 = lab)).map (fun y => y.2)).sum := by
      intro lab
      by_cases he : x.1 = lab
      · simp [List.filter_cons, he]
      · simp [List.filter_cons, he]
    have hrec := tallAgg_sum labels rest hnd (fun y hy => hcov y (by simp [hy]))
    calc ((tallAgg labels (x :: rest)).map (fun y => y.2)).sum
        = (labels.map (fun lab => (if x.1 = lab then x.2 else 0) +
            ((rest.filter (fun y => y.1 = lab)).map (fun y => y.2)).sum)).sum := by
          simp only [tallAgg, List.map_map]
          congr 1
          exact List.map_congr_left (fun lab _ => hstep lab)
      _ = (labels.map (fun lab => if x.1 = lab then x.2 else 0)).sum +
            (labels.map (fun lab =>
              ((rest.filter (fun y => y.1 = lab)).map (fun y => y.2)).sum)).sum :=
          List.sum_map_add
      _ = x.2 + (rest.map (fun y => y.2)).sum := by
          rw [sum_map_ite_single x.1 x.2 labels hnd (hcov x (by simp))]
          congr 1
          simpa [tallAgg, List.map_map] using hrec
      _ = ((x :: rest).map (fun y => y.2)).sum := by simp

lemma sum_map_filter_split {α : Type} (p : α → Bool) (f : α → ℚ) :
    ∀ l : List α,
      ((l.filter p).map f).sum + ((l.filter (fun x => !p x)).map f).sum =
        (l.map f).sum
  | [] => by simp
  | x :: rest => by
    by_cases hp : p x = true
    · rw [List.filter_cons_of_pos hp, List.filter_cons_of_neg (by simp [hp])]
      simp only [List.map_cons, List.sum_cons]
      rw [← sum_map_filter_split p f rest]
      ring
    · have hp2 : p x = false := by simpa using hp
      rw [List.filter_cons_of_neg (by simp [hp2]), List.filter_cons_of_pos (by simp [hp2])]
      simp only [List.map_cons, List.sum_cons]
      rw [← sum_map_filter_split p f rest]
      ring

lemma valueSelect_total (row : Row) :
    valueSelect "total" row = row.principal + row.interest := by
  simp [valueSelect]

lemma valueSelect_interest (row : Row) : valueSelect "interest" row = row.interest := by
  simp [valueSelect]

lemma lcrBucket_mem (pay ref : Date) : lcrBucket pay ref ∈ lcrLabels := by
  unfold lcrBucket
  split <;> simp [lcrLabels]

lemma nsfrBucket_mem (pay ref : Date) : nsfrBucket pay ref ∈ nsfrLabels := by
  unfold nsfrBucket
  split
  · simp [nsfrLabels]
  · split <;> simp [nsfrLabels]

lemma lcrBucket_le30_iff (pay ref : Date) :
    lcrBucket pay ref = "≤30D" ↔ dayDiff pay ref ≤ 30 := by
  unfold lcrBucket
  split <;> simp_all

lemma dayDiff_same_month (y m a b : ℕ) :
    dayDiff ⟨y, m, a⟩ ⟨y, m, b⟩ = (a : ℤ) - (b : ℤ) := by
  unfold dayDiff rataDie
  generalize (365 * (y - 1) + leapDays (y - 1) + daysBeforeMonth y m) = C
  push_cast
  ring

lemma monthsDiff_pos_of_days (pay ref : Date) (href : ValidDate ref)
    (hmono : monthIdx ref ≤ monthIdx pay)
    (hm1 : 1 ≤ pay.month) (hm12 : pay.month ≤ 12) (hday : pay.day ≤ 31)
    (hdd : 30 < dayDiff pay ref) : 1 ≤ monthsDiff pay ref := by
  obtain ⟨py, pm, pd⟩ := pay
  obtain ⟨ry, rm, rd⟩ := ref
  obtain ⟨hr1, hr2, hr3, _⟩ := href
  simp only [monthIdx] at hmono
  simp only at hm1 hm12 hday hr1 hr2 hr3
  by_contra hlt
  push_neg at hlt
  have hmd : ((py : ℤ) - ry) * 12 + ((pm : ℤ) - rm) < 1 := hlt
  have hy : py = ry := by omega
  have hm : pm = rm := by omega
  subst hy
  subst hm
  rw [dayDiff_same_month py pm pd rd] at hdd
  omega

lemma irrbbRowBucket_mem (pay ref : Date) (href : ValidDate ref)
    (hmono : monthIdx ref ≤ monthIdx pay)
    (hm1 : 1 ≤ pay.month) (hm12 : pay.month ≤ 12) (hday : pay.day ≤ 31) :
    irrbbRowBucket pay ref ∈ irrbbAllLabels := by
  unfold irrbbRowBucket
  split_ifs with h
  · simp [irrbbAllLabels]
  · push_neg at h
    have hmonths := monthsDiff_pos_of_days pay ref href hmono hm1 hm12 hday h
    obtain ⟨lab, hl⟩ := cutMonth_true_covers _ hmonths
    rw [hl]
    simp only [Option.getD_some]
    exact List.mem_cons_of_mem _ (cutMonth_mem true _ lab hl)

lemma getD_cutMonth_ne (il : Bool) (m : ℤ) :
    (cutMonth il m).getD "nan" ≠ "≤ 1 bulan" := by
  cases hc : cutMonth il m with
  | none =>
    simp only [Option.getD_none]
    decide
  | some lab =>
    simp only [Option.getD_some]
    intro heq
    have hmem := cutMonth_mem il m lab hc
    rw [heq] at hmem
    revert hmem
    decide

lemma annuityBalance_sub (pmt r b : ℚ) :
    ∀ k : ℕ, annuityBalance pmt r b (k + 1) - annuityBalance pmt r b k =
      (1 + r) ^ k * (b * r - pmt)
  | 0 => by
    simp only [annuityBalance, pow_zero]
    ring
  | k + 1 => by
    have ih := annuityBalance_sub pmt r b k
    have hstep : annuityBalance pmt r b (k + 1 + 1) - annuityBalance pmt r b (k + 1) =
        (1 + r) * (annuityBalance pmt r b (k + 1) - annuityBalance pmt r b k) := by
      simp only [annuityBalance]
      ring
    rw [hstep, ih]
    ring

lemma annuityBalance_strict_anti (pmt r b : ℚ) (hr : 0 < r) (hlt : b * r < pmt)
    (k : ℕ) : annuityBalance pmt r b (k + 1) < annuityBalance pmt r b k := by
  have hsub := annuityBalance_sub pmt r b k
  have hpow : (0 : ℚ) < (1 + r) ^ k := pow_pos (by linarith) k
  have hneg : (1 + r) ^ k * (b * r - pmt) < 0 :=
    mul_neg_of_pos_of_neg hpow (by linarith)
  linarith

lemma schedulePmt_gt (r : ℚ) (N : ℕ) (P : ℚ) (hr : 0 < r) (hP : 0 < P)
    (hN : 1 ≤ N) : P * r < schedulePmt r N P := by
  have hrne : r ≠ 0 := ne_of_gt hr
  rw [schedulePmt, if_pos hrne]
  have hA : 1 < (1 + r) ^ N := one_lt_pow₀ (by linarith) (by omega)
  have hAne : (1 + r) ^ N - 1 ≠ 0 := ne_of_gt (by linarith)
  have key : P * r * (1 + r) ^ N / ((1 + r) ^ N - 1) - P * r =
      P * r / ((1 + r) ^ N - 1) := by
    field_simp
    ring
  have hpos : 0 < P * r / ((1 + r) ^ N - 1) :=
    div_pos (mul_pos hP hr) (by linarith)
  linarith

lemma emptyBucketResult_sum (labels : List String) :
    ((emptyBucketResult labels).map (fun x => x.2)).sum = 0 := by
  simp only [emptyBucketResult, List.map_map]
  exact List.sum_eq_zero (by simp)

lemma tall_sum_general (labels : List String) (rows : List Row)
    (bucketOf : Row → String) (hnd : labels.Nodup)
    (hcov : ∀ row ∈ rows, bucketOf row ∈ labels) (vt : String) (f : Row → ℚ)
    (hf : ∀ row, valueSelect vt row = f row) :
    ((tallAgg labels (rows.map
        (fun row => (bucketOf row, valueSelect vt row)))).map
      (fun x => x.2)).sum = (rows.map f).sum := by
  rw [tallAgg_sum labels _ hnd (by
    intro x hx
    simp only [List.mem_map] at hx
    obtain ⟨row, hrow, hxe⟩ := hx
    rw [← hxe]
    exact hcov row hrow)]
  rw [List.map_map]
  exact congrArg List.sum (List.map_congr_left (fun row _ => hf row))

/-- Every payment date of any schedule row is a generator candidate, so
its IRRBB bucket is one of the 18 canonical labels. -/
lemma schedule_irrbb_cov (loan : Loan) (rows : List Row)
    (hvalid : ValidDate loan.reporting_date)
    (h : schedule loan = .ok rows) :
    ∀ row ∈ rows,
      irrbbRowBucket row.payment_date loan.reporting_date ∈ irrbbAllLabels := by
  intro row hrow
  have hdmem := schedule_payment_dates loan rows h row hrow
  obtain ⟨⟨idx, hmono, hcd⟩, _⟩ := generate_mem _ _ _ hdmem
  have hml := candidateDate_month_bounds loan.end_date.day idx
  have hmi := candidateDate_monthIdx loan.end_date.day idx
  apply irrbbRowBucket_mem _ _ hvalid
  · rw [hcd, hmi]
    exact hmono
  · rw [hcd]
    exact hml.1
  · rw [hcd]
    exact hml.2
  · rw [hcd]
    exact le_trans (min_le_right _ _) (daysInMonth_le_31 _ _)

lemma lcrBucket_gt30_iff (pay ref : Date) :
    lcrBucket pay ref = ">30D" ↔ ¬ dayDiff pay ref ≤ 30 := by
  unfold lcrBucket
  split <;> simp_all

lemma flat_pairs_sum (rows : List Row) (bucketOf : Row → String) (g : Row → ℚ)
    (lab : String) :
    (((rows.map (fun row => (bucketOf row, g row))).filter
        (fun x => x.1 = lab)).map (fun x => x.2)).sum =
      ((rows.filter (fun row => bucketOf row = lab)).map g).sum := by
  rw [List.filter_map, List.map_map]
  rfl

lemma sum_map_zero_fun {α : Type} (l : List α) (g : α → ℚ)
    (hg : ∀ x ∈ l, g x = 0) : (l.map g).sum = 0 :=
  List.sum_eq_zero (by
    intro x hx
    obtain ⟨a, ha, rfl⟩ := List.mem_map.mp hx
    exact hg a ha)

/-! ### Example loans used by the concrete instances -/

/-- A loan whose term already ended on the reporting date, with invalid
installment and method strings. -/
def loanPastDue : Loan :=
  ⟨⟨2024, 1, 1⟩, ⟨2024, 1, 1⟩, 100, 12/100, "maybe", "foo"⟩

/-- A valid annuity loan written with mixed-case enum values. -/
def loanMixedCase : Loan :=
  ⟨⟨2024, 1, 1⟩, ⟨2024, 3, 1⟩, 1000, 12/100, "YES", "Annuity"⟩

/-- A live loan with `installment = yes` but an unknown method. -/
def loanBadMethod : Loan :=
  ⟨⟨2024, 1, 1⟩, ⟨2024, 3, 1⟩, 1000, 12/100, "yes", "bogus"⟩

/-- A one-period bullet loan. -/
def loanBullet1 : Loan :=
  ⟨⟨2024, 1, 1⟩, ⟨2024, 2, 1⟩, 1000, 12/100, "no", "annuity"⟩

/-- A two-period bullet loan. -/
def loanBullet2 : Loan :=
  ⟨⟨2024, 1, 1⟩, ⟨2024, 3, 1⟩, 1000, 12/100, "no", "annuity"⟩

/-- The spec's flat example: 12 periods of 100000 + 12000. -/
def loanFlat12 : Loan :=
  ⟨⟨2024, 1, 1⟩, ⟨2025, 1, 1⟩, 1200000, 12/100, "yes", "flat"⟩

/-- A three-period annuity loan at 1% monthly. -/
def loanAnnuity3 : Loan :=
  ⟨⟨2024, 1, 1⟩, ⟨2024, 4, 1⟩, 1000, 12/100, "yes", "annuity"⟩

/-- A bullet loan whose first payment (2024-01-20) is within 30 days of
the reporting date 2024-01-05 while the later ones are not. -/
def loanMix : Loan :=
  ⟨⟨2024, 1, 5⟩, ⟨2024, 3, 20⟩, 1000, 12/100, "no", "annuity"⟩

/-! ### Claim theorems -/

/-- **C1**: for a bullet loan (`installment = "no"`, lower-cased) on the
live path with N ≥ 1 payment dates and a non-negative outstanding, the
schedule has one row per payment date; every row's interest is the
constant `round2(outstanding × annual_rate/12)`; every non-final row has
principal 0 and remaining balance `round2 outstanding`; and the final row
(period N, which is period 1 when N = 1) repays `round2 outstanding` and
leaves balance 0. (Monetary row fields are the 2-decimal roundings the
code stores.) -/
theorem c1_bullet_schedule (loan : Loan) (rows : List Row)
    (hinst : strToLower loan.installment = "no")
    (hd : dateLeb loan.end_date loan.reporting_date = false)
    (hP : 0 ≤ loan.outstanding)
    (h : schedule loan = .ok rows)
    (_hN : 1 ≤ (generate_payment_dates loan.reporting_date loan.end_date).length) :
    rows.length = (generate_payment_dates loan.reporting_date loan.end_date).length ∧
    ∀ row ∈ rows,
      row.interest = round2 (loan.outstanding * (loan.interest_rate / 12)) ∧
      (row.period < (generate_payment_dates loan.reporting_date loan.end_date).length →
        row.principal = 0 ∧ row.remaining_balance = round2 loan.outstanding) ∧
      (row.period = (generate_payment_dates loan.reporting_date loan.end_date).length →
        row.principal = round2 loan.outstanding ∧ row.remaining_balance = 0) := by
  rw [schedule_bullet loan hd hinst] at h
  simp only [Except.ok.injEq] at h
  subst h
  refine ⟨bulletAux_length _ _ _ _ _ _, ?_⟩
  intro row hrow
  obtain ⟨⟨k, hk⟩, hget⟩ := List.mem_iff_get.mp hrow
  have hk2 : k < (generate_payment_dates loan.reporting_date loan.end_date).length := by
    have hcopy := hk
    rwa [bulletAux_length] at hcopy
  have hchar := bulletAux_get loan.outstanding (loan.interest_rate / 12)
    (generate_payment_dates loan.reporting_date loan.end_date).length
    (generate_payment_dates loan.reporting_date loan.end_date)
    loan.outstanding 1 (by omega) k hk2
  have hrow_eq : row =
      { period := 1 + k,
        payment_date := (generate_payment_dates loan.reporting_date loan.end_date).get ⟨k, hk2⟩,
        payment := round2 ((if 1 + k =
            (generate_payment_dates loan.reporting_date loan.end_date).length
          then loan.outstanding else 0) +
          loan.outstanding * (loan.interest_rate / 12)),
        principal := round2 (if 1 + k =
            (generate_payment_dates loan.reporting_date loan.end_date).length
          then loan.outstanding else 0),
        interest := round2 (loan.outstanding * (loan.interest_rate / 12)),
        remaining_balance := round2 (max (if 1 + k =
            (generate_payment_dates loan.reporting_date loan.end_date).length
          then loan.outstanding - loan.outstanding else loan.outstanding) 0) } := by
    rw [← hget]
    exact hchar
  refine ⟨by rw [hrow_eq], fun hlt => ?_, fun heq => ?_⟩
  · rw [hrow_eq] at hlt
    simp only at hlt
    rw [hrow_eq]
    constructor
    · show round2 (if 1 + k =
          (generate_payment_dates loan.reporting_date loan.end_date).length
        then loan.outstanding else 0) = 0
      rw [if_neg (by omega), round2_zero]
    · show round2 (max (if 1 + k =
          (generate_payment_dates loan.reporting_date loan.end_date).length
        then loan.outstanding - loan.outstanding else loan.outstanding) 0) =
        round2 loan.outstanding
      rw [if_neg (by omega), max_eq_left hP]
  · rw [hrow_eq] at heq
    simp only at heq
    rw [hrow_eq]
    constructor
    · show round2 (if 1 + k =
          (generate_payment_dates loan.reporting_date loan.end_date).length
        then loan.outstanding else 0) = round2 loan.outstanding
      rw [if_pos heq]
    · show round2 (max (if 1 + k =
          (generate_payment_dates loan.reporting_date loan.end_date).length
        then loan.outstanding - loan.outstanding else loan.outstanding) 0) = 0
      rw [if_pos heq, sub_self, max_self, round2_zero]

/-- **C1 (witness)**: the one-period bullet loan repays everything in
period 1 = N with constant interest 10; the two-period bullet loan keeps
principal 0 and balance 1000 in its non-final period. -/
theorem c1_witness :
    schedule loanBullet1 = .ok [⟨1, ⟨2024, 2, 1⟩, 1010, 1000, 10, 0⟩] ∧
    (⟨1, ⟨2024, 2, 1⟩, 1010, 1000, 10, 0⟩ : Row).principal = round2 (1000 : ℚ) ∧
    (⟨1, ⟨2024, 2, 1⟩, 1010, 1000, 10, 0⟩ : Row).remaining_balance = 0 ∧
    (⟨1, ⟨2024, 2, 1⟩, 1010, 1000, 10, 0⟩ : Row).interest =
      round2 ((1000 : ℚ) * (12/100/12)) ∧
    (⟨1, ⟨2024, 2, 1⟩, 10, 0, 10, 1000⟩ : Row).principal = 0 ∧
    (⟨1, ⟨2024, 2, 1⟩, 10, 0, 10, 1000⟩ : Row).remaining_balance =
      round2 (1000 : ℚ) := by
  have happ1 := c1_bullet_schedule loanBullet1
    [⟨1, ⟨2024, 2, 1⟩, 1010, 1000, 10, 0⟩]
    (by decide) (by decide) (by decide) (by decide) (by decide)
  have hrow1 := happ1.2 ⟨1, ⟨2024, 2, 1⟩, 1010, 1000, 10, 0⟩ (by simp)
  have happ2 := c1_bullet_schedule loanBullet2
    [⟨1, ⟨2024, 2, 1⟩, 10, 0, 10, 1000⟩, ⟨2, ⟨2024, 3, 1⟩, 1010, 1000, 10, 0⟩]
    (by decide) (by decide) (by decide) (by decide) (by decide)
  have hrow2 := happ2.2 ⟨1, ⟨2024, 2, 1⟩, 10, 0, 10, 1000⟩ (by simp)
  exact ⟨by decide, (hrow1.2.2 (by decide)).1, (hrow1.2.2 (by decide)).2,
    hrow1.1, (hrow2.2.1 (by decide)).1, (hrow2.2.1 (by decide)).2⟩

/-- **C2**: for every (reporting_date, end_date) pair, every generated
payment date's day-of-month is `min(end_date.day, days in that month)`
and is ≤ end_date; consecutive dates are strictly increasing and exactly
one calendar month apart (linear month index +1); and the first date's
month is reporting_date's month + 1 (with year carry, via the linear
month index) when `reporting_date.day ≥ end_date.day`, else
reporting_date's month. -/
theorem c2_payment_dates (reporting_date end_date : Date) :
    (∀ d ∈ generate_payment_dates reporting_date end_date,
      d.day = min end_date.day (daysInMonth d.year d.month) ∧
      dateLeb d end_date = true) ∧
    (∀ (k : ℕ) (hk1 : k < (generate_payment_dates reporting_date end_date).length)
        (hk2 : k + 1 < (generate_payment_dates reporting_date end_date).length),
      dateLtb ((generate_payment_dates reporting_date end_date).get ⟨k, hk1⟩)
          ((generate_payment_dates reporting_date end_date).get ⟨k + 1, hk2⟩) = true ∧
      monthIdx ((generate_payment_dates reporting_date end_date).get ⟨k + 1, hk2⟩) =
        monthIdx ((generate_payment_dates reporting_date end_date).get ⟨k, hk1⟩) + 1) ∧
    (∀ h0 : 0 < (generate_payment_dates reporting_date end_date).length,
      monthIdx ((generate_payment_dates reporting_date end_date).get ⟨0, h0⟩) =
        if end_date.day ≤ reporting_date.day then monthIdx reporting_date + 1
        else monthIdx reporting_date) := by
  refine ⟨?_, ?_, ?_⟩
  · intro d hd
    obtain ⟨⟨idx, _, hcd⟩, hle⟩ := generate_mem reporting_date end_date d hd
    subst hcd
    exact ⟨rfl, hle⟩
  · intro k hk1 hk2
    obtain ⟨hg1, _⟩ := generate_get reporting_date end_date k hk1
    obtain ⟨hg2, _⟩ := generate_get reporting_date end_date (k + 1) hk2
    have hshift : (if end_date.day ≤ reporting_date.day
        then monthIdx reporting_date + 1 else monthIdx reporting_date) + (k + 1) =
        ((if end_date.day ≤ reporting_date.day
          then monthIdx reporting_date + 1 else monthIdx reporting_date) + k) + 1 := by
      omega
    constructor
    · rw [hg1, hg2, hshift]
      exact candidateDate_lt_next end_date.day _
    · rw [hg1, hg2, hshift, candidateDate_monthIdx, candidateDate_monthIdx]
  · intro h0
    obtain ⟨hg, _⟩ := generate_get reporting_date end_date 0 h0
    rw [hg, Nat.add_zero, candidateDate_monthIdx]

/-- **C2 (witness)**: on the loan 2024-01-01 → 2025-01-01 the first two
dates are strictly increasing and one month apart, the first date starts
in the month after the reporting date (its day ≥ the anchor day), and on
2024-01-15 → 2024-05-31 the February date is clamped to day 29. -/
theorem c2_witness :
    dateLtb ((generate_payment_dates ⟨2024, 1, 1⟩ ⟨2025, 1, 1⟩).get ⟨0, by decide⟩)
        ((generate_payment_dates ⟨2024, 1, 1⟩ ⟨2025, 1, 1⟩).get ⟨1, by decide⟩) = true ∧
    monthIdx ((generate_payment_dates ⟨2024, 1, 1⟩ ⟨2025, 1, 1⟩).get ⟨1, by decide⟩) =
      monthIdx ((generate_payment_dates ⟨2024, 1, 1⟩ ⟨2025, 1, 1⟩).get ⟨0, by decide⟩) + 1 ∧
    monthIdx ((generate_payment_dates ⟨2024, 1, 1⟩ ⟨2025, 1, 1⟩).get ⟨0, by decide⟩) =
      (if (⟨2025, 1, 1⟩ : Date).day ≤ (⟨2024, 1, 1⟩ : Date).day
        then monthIdx ⟨2024, 1, 1⟩ + 1 else monthIdx ⟨2024, 1, 1⟩) ∧
    (⟨2024, 2, 29⟩ : Date).day =
      min (⟨2024, 5, 31⟩ : Date).day (daysInMonth 2024 2) := by
  obtain ⟨-, hpair, hhead⟩ := c2_payment_dates ⟨2024, 1, 1⟩ ⟨2025, 1, 1⟩
  refine ⟨(hpair 0 (by decide) (by decide)).1, (hpair 0 (by decide) (by decide)).2,
    hhead (by decide), ?_⟩
  exact ((c2_payment_dates ⟨2024, 1, 15⟩ ⟨2024, 5, 31⟩).1 ⟨2024, 2, 29⟩ (by decide)).1

/-- **C4**: for a flat loan (`installment = "yes"`, `method = "flat"`,
lower-cased) on the live path with N ≥ 1 payment dates, every row stores
principal `round2(outstanding/N)`, interest `round2(outstanding × r)`
computed on the original principal, payment `round2` of their (exact)
sum — identical in every period — and remaining balance `round2` of the
original principal minus period × outstanding/N (floored at 0), which is
exactly 0 at period N. -/
theorem c4_flat_schedule (loan : Loan) (rows : List Row)
    (hinst : strToLower loan.installment = "yes")
    (hmeth : strToLower loan.method = "flat")
    (hd : dateLeb loan.end_date loan.reporting_date = false)
    (h : schedule loan = .ok rows)
    (hN : 1 ≤ (generate_payment_dates loan.reporting_date loan.end_date).length) :
    rows.length = (generate_payment_dates loan.reporting_date loan.end_date).length ∧
    ∀ row ∈ rows,
      row.principal = round2 (loan.outstanding /
        (generate_payment_dates loan.reporting_date loan.end_date).length) ∧
      row.interest = round2 (loan.outstanding * (loan.interest_rate / 12)) ∧
      row.payment = round2 (loan.outstanding /
          (generate_payment_dates loan.reporting_date loan.end_date).length +
        loan.outstanding * (loan.interest_rate / 12)) ∧
      row.remaining_balance = round2 (max (loan.outstanding -
        (row.period : ℚ) * (loan.outstanding /
          (generate_payment_dates loan.reporting_date loan.end_date).length)) 0) ∧
      (row.period = (generate_payment_dates loan.reporting_date loan.end_date).length →
        row.remaining_balance = 0) := by
  rw [schedule_flat loan hd hinst hmeth] at h
  simp only [Except.ok.injEq] at h
  subst h
  refine ⟨flatAux_length _ _ _ _ _, ?_⟩
  intro row hrow
  obtain ⟨⟨k, hk⟩, hget⟩ := List.mem_iff_get.mp hrow
  have hk2 : k < (generate_payment_dates loan.reporting_date loan.end_date).length := by
    have hcopy := hk
    rwa [flatAux_length] at hcopy
  have hchar := flatAux_get
    (loan.outstanding / (generate_payment_dates loan.reporting_date loan.end_date).length)
    (loan.outstanding * (loan.interest_rate / 12))
    (generate_payment_dates loan.reporting_date loan.end_date)
    loan.outstanding 1 k hk2
  have hrow_eq : row =
      { period := 1 + k,
        payment_date := (generate_payment_dates loan.reporting_date loan.end_date).get ⟨k, hk2⟩,
        payment := round2 (loan.outstanding /
            (generate_payment_dates loan.reporting_date loan.end_date).length +
          loan.outstanding * (loan.interest_rate / 12)),
        principal := round2 (loan.outstanding /
          (generate_payment_dates loan.reporting_date loan.end_date).length),
        interest := round2 (loan.outstanding * (loan.interest_rate / 12)),
        remaining_balance := round2 (max (loan.outstanding - ((k : ℚ) + 1) *
          (loan.outstanding /
            (generate_payment_dates loan.reporting_date loan.end_date).length)) 0) } := by
    rw [← hget]
    exact hchar
  have hper : ((1 + k : ℕ) : ℚ) = (k : ℚ) + 1 := by push_cast; ring
  refine ⟨by rw [hrow_eq], by rw [hrow_eq], by rw [hrow_eq], ?_, fun heq => ?_⟩
  · rw [hrow_eq]
    show round2 (max (loan.outstanding - ((k : ℚ) + 1) * _) 0) =
      round2 (max (loan.outstanding - ((1 + k : ℕ) : ℚ) * _) 0)
    rw [hper]
  · rw [hrow_eq] at heq
    simp only at heq
    rw [hrow_eq]
    show round2 (max (loan.outstanding - ((k : ℚ) + 1) *
      (loan.outstanding /
        (generate_payment_dates loan.reporting_date loan.end_date).length)) 0) = 0
    have hNne : ((generate_payment_dates loan.reporting_date loan.end_date).length : ℚ) ≠ 0 := by
      have : (0 : ℕ) < (generate_payment_dates loan.reporting_date loan.end_date).length := hN
      positivity
    have hcancel : ((k : ℚ) + 1) * (loan.outstanding /
        (generate_payment_dates loan.reporting_date loan.end_date).length) =
        loan.outstanding := by
      have hkN : ((k : ℚ) + 1) =
          ((generate_payment_dates loan.reporting_date loan.end_date).length : ℚ) := by
        rw [← hper, heq]
      rw [hkN]
      field_simp
    rw [hcancel, sub_self, max_self, round2_zero]

/-- **C4 (witness)**: the spec's concrete flat loan (2024-01-01 →
2025-01-01, outstanding 1 200 000, rate 12%) has 12 periods, each with
principal 100 000, interest 12 000, payment 112 000, and final balance 0. -/
theorem c4_witness :
    (schedule loanFlat12).map (fun rows => rows.map (fun row => row.principal)) =
      .ok (List.replicate 12 (100000 : ℚ)) ∧
    (schedule loanFlat12).map (fun rows => rows.map (fun row => row.interest)) =
      .ok (List.replicate 12 (12000 : ℚ)) ∧
    (schedule loanFlat12).map (fun rows => rows.map (fun row => row.payment)) =
      .ok (List.replicate 12 (112000 : ℚ)) ∧
    (⟨1, ⟨2024, 2, 1⟩, 112000, 100000, 12000, 1100000⟩ : Row).principal =
      round2 ((1200000 : ℚ) / 12) ∧
    (⟨12, ⟨2025, 1, 1⟩, 112000, 100000, 12000, 0⟩ : Row).remaining_balance = 0 := by
  have happ := c4_flat_schedule loanFlat12
    [⟨1, ⟨2024, 2, 1⟩, 112000, 100000, 12000, 1100000⟩,
     ⟨2, ⟨2024, 3, 1⟩, 112000, 100000, 12000, 1000000⟩,
     ⟨3, ⟨2024, 4, 1⟩, 112000, 100000, 12000, 900000⟩,
     ⟨4, ⟨2024, 5, 1⟩, 112000, 100000, 12000, 800000⟩,
     ⟨5, ⟨2024, 6, 1⟩, 112000, 100000, 12000, 700000⟩,
     ⟨6, ⟨2024, 7, 1⟩, 112000, 100000, 12000, 600000⟩,
     ⟨7, ⟨2024, 8, 1⟩, 112000, 100000, 12000, 500000⟩,
     ⟨8, ⟨2024, 9, 1⟩, 112000, 100000, 12000, 400000⟩,
     ⟨9, ⟨2024, 10, 1⟩, 112000, 100000, 12000, 300000⟩,
     ⟨10, ⟨2024, 11, 1⟩, 112000, 100000, 12000, 200000⟩,
     ⟨11, ⟨2024, 12, 1⟩, 112000, 100000, 12000, 100000⟩,
     ⟨12, ⟨2025, 1, 1⟩, 112000, 100000, 12000, 0⟩]
    (by decide) (by decide) (by decide) (by decide) (by decide)
  have hrow1 := happ.2 ⟨1, ⟨2024, 2, 1⟩, 112000, 100000, 12000, 1100000⟩ (by simp)
  have hrow12 := happ.2 ⟨12, ⟨2025, 1, 1⟩, 112000, 100000, 12000, 0⟩ (by simp)
  exact ⟨by decide, by decide, by decide, hrow1.1, hrow12.2.2.2.2 (by decide)⟩

/-- **C3**: for an annuity loan (`installment = "yes"`,
`method = "annuity"`, lower-cased) on the live path with outstanding > 0
and N ≥ 1 payment dates: every row reports the same constant payment
`round2 pmt` with `pmt` the standard annuity payment (`npf.pmt`) and
`pmt = outstanding / N` when r = 0; the rows' interest and principal are
the 2-decimal roundings of the loop's unrounded quantities
`balance_k × r` and `pmt − balance_k × r`; and when r > 0 the unrounded
interest strictly decreases and the unrounded principal strictly
increases from each period to the next. -/
theorem c3_annuity_schedule (loan : Loan) (rows : List Row)
    (hinst : strToLower loan.installment = "yes")
    (hmeth : strToLower loan.method = "annuity")
    (hd : dateLeb loan.end_date loan.reporting_date = false)
    (hP : 0 < loan.outstanding)
    (h : schedule loan = .ok rows)
    (hN : 1 ≤ (generate_payment_dates loan.reporting_date loan.end_date).length) :
    (∀ row ∈ rows, row.payment = round2 (schedulePmt (loan.interest_rate / 12)
      (generate_payment_dates loan.reporting_date loan.end_date).length
      loan.outstanding)) ∧
    (loan.interest_rate / 12 = 0 →
      schedulePmt (loan.interest_rate / 12)
        (generate_payment_dates loan.reporting_date loan.end_date).length
        loan.outstanding =
      loan.outstanding /
        (generate_payment_dates loan.reporting_date loan.end_date).length) ∧
    (∀ (k : ℕ) (hk : k < rows.length),
      (rows.get ⟨k, hk⟩).interest = round2 (annuityBalance
        (schedulePmt (loan.interest_rate / 12)
          (generate_payment_dates loan.reporting_date loan.end_date).length
          loan.outstanding)
        (loan.interest_rate / 12) loan.outstanding k * (loan.interest_rate / 12)) ∧
      (rows.get ⟨k, hk⟩).principal = round2 (schedulePmt (loan.interest_rate / 12)
          (generate_payment_dates loan.reporting_date loan.end_date).length
          loan.outstanding -
        annuityBalance
          (schedulePmt (loan.interest_rate / 12)
            (generate_payment_dates loan.reporting_date loan.end_date).length
            loan.outstanding)
          (loan.interest_rate / 12) loan.outstanding k * (loan.interest_rate / 12))) ∧
    (0 < loan.interest_rate / 12 →
      ∀ k : ℕ,
        annuityBalance
          (schedulePmt (loan.interest_rate / 12)
            (generate_payment_dates loan.reporting_date loan.end_date).length
            loan.outstanding)
          (loan.interest_rate / 12) loan.outstanding (k + 1) *
            (loan.interest_rate / 12) <
        annuityBalance
          (schedulePmt (loan.interest_rate / 12)
            (generate_payment_dates loan.reporting_date loan.end_date).length
            loan.outstanding)
          (loan.interest_rate / 12) loan.outstanding k *
            (loan.interest_rate / 12) ∧
        schedulePmt (loan.interest_rate / 12)
            (generate_payment_dates loan.reporting_date loan.end_date).length
            loan.outstanding -
          annuityBalance
            (schedulePmt (loan.interest_rate / 12)
              (generate_payment_dates loan.reporting_date loan.end_date).length
              loan.outstanding)
            (loan.interest_rate / 12) loan.outstanding k *
              (loan.interest_rate / 12) <
        schedulePmt (loan.interest_rate / 12)
            (generate_payment_dates loan.reporting_date loan.end_date).length
            loan.outstanding -
          annuityBalance
            (schedulePmt (loan.interest_rate / 12)
              (generate_payment_dates loan.reporting_date loan.end_date).length
              loan.outstanding)
            (loan.interest_rate / 12) loan.outstanding (k + 1) *
              (loan.interest_rate / 12)) := by
  rw [schedule_annuity loan hd hinst hmeth] at h
  simp only [Except.ok.injEq] at h
  subst h
  refine ⟨?_, ?_, ?_, ?_⟩
  · intro row hrow
    obtain ⟨⟨k, hk⟩, hget⟩ := List.mem_iff_get.mp hrow
    have hk2 : k < (generate_payment_dates loan.reporting_date loan.end_date).length := by
      have hcopy := hk
      rwa [annuityAux_length] at hcopy
    have hchar := annuityAux_get
      (schedulePmt (loan.interest_rate / 12)
        (generate_payment_dates loan.reporting_date loan.end_date).length
        loan.outstanding)
      (loan.interest_rate / 12)
      (generate_payment_dates loan.reporting_date loan.end_date)
      loan.outstanding 1 k hk2
    have hrow_eq := hget.symm.trans hchar
    rw [hrow_eq]
  · intro hr0
    rw [schedulePmt, if_neg (by simp [hr0])]
  · intro k hk
    have hk2 : k < (generate_payment_dates loan.reporting_date loan.end_date).length := by
      have hcopy := hk
      rwa [annuityAux_length] at hcopy
    have hchar := annuityAux_get
      (schedulePmt (loan.interest_rate / 12)
        (generate_payment_dates loan.reporting_date loan.end_date).length
        loan.outstanding)
      (loan.interest_rate / 12)
      (generate_payment_dates loan.reporting_date loan.end_date)
      loan.outstanding 1 k hk2
    rw [hchar]
    exact ⟨rfl, rfl⟩
  · intro hr k
    have hgt := schedulePmt_gt (loan.interest_rate / 12)
      (generate_payment_dates loan.reporting_date loan.end_date).length
      loan.outstanding hr hP hN
    have hanti := annuityBalance_strict_anti
      (schedulePmt (loan.interest_rate / 12)
        (generate_payment_dates loan.reporting_date loan.end_date).length
        loan.outstanding)
      (loan.interest_rate / 12) loan.outstanding hr (by linarith) k
    constructor
    · exact mul_lt_mul_of_pos_right hanti hr
    · have := mul_lt_mul_of_pos_right hanti hr
      linarith

/-- **C3 (witness)**: the three-period annuity loan at monthly rate 1%
reports the constant rounded payment 340.02 in all periods, and its
unrounded interest decreases while the unrounded principal increases
between periods 1 and 2. -/
theorem c3_witness :
    (schedule loanAnnuity3).map (fun rows => rows.map (fun row => row.payment)) =
      .ok (List.replicate 3 (17001 / 50 : ℚ)) ∧
    (⟨2, ⟨2024, 3, 1⟩, 17001/50, 8333/25, 67/10, 16833/50⟩ : Row).interest =
      round2 (annuityBalance
        (schedulePmt (loanAnnuity3.interest_rate / 12)
          (generate_payment_dates loanAnnuity3.reporting_date loanAnnuity3.end_date).length
          loanAnnuity3.outstanding)
        (loanAnnuity3.interest_rate / 12) loanAnnuity3.outstanding 1 *
          (loanAnnuity3.interest_rate / 12)) ∧
    annuityBalance
        (schedulePmt (loanAnnuity3.interest_rate / 12)
          (generate_payment_dates loanAnnuity3.reporting_date loanAnnuity3.end_date).length
          loanAnnuity3.outstanding)
        (loanAnnuity3.interest_rate / 12) loanAnnuity3.outstanding 1 *
          (loanAnnuity3.interest_rate / 12) <
      annuityBalance
        (schedulePmt (loanAnnuity3.interest_rate / 12)
          (generate_payment_dates loanAnnuity3.reporting_date loanAnnuity3.end_date).length
          loanAnnuity3.outstanding)
        (loanAnnuity3.interest_rate / 12) loanAnnuity3.outstanding 0 *
          (loanAnnuity3.interest_rate / 12) := by
  have h : schedule loanAnnuity3 = .ok
      [⟨1, ⟨2024, 2, 1⟩, 17001/50, 16501/50, 10, 33499/50⟩,
       ⟨2, ⟨2024, 3, 1⟩, 17001/50, 8333/25, 67/10, 16833/50⟩,
       ⟨3, ⟨2024, 4, 1⟩, 17001/50, 16833/50, 337/100, 0⟩] := by decide
  have happ := c3_annuity_schedule loanAnnuity3 _
    (by decide) (by decide) (by decide) (by decide) h (by decide)
  refine ⟨by decide, ?_, (happ.2.2.2 (by decide) 0).1⟩
  exact (happ.2.2.1 1 (by decide)).1

/-- **C5 (counterexample)**: at payment date 2024-02-01 and reporting date
2024-01-01 the day difference is 31 (> 30) and the month difference is 1;
the inline aggregation classifier assigns "1-3 bulan" but the standalone
`BucketIRRBB.get_bucket` returns no label (pandas `NaN`), because its
`pd.cut` call omits `include_lowest=True` and month 1 is excluded from
the default-open first interval `(1, 3]`. This refutes the claim that the
month-bucket table is lowest-inclusive for both classifiers. -/
theorem c5_counterexample :
    dayDiff ⟨2024, 2, 1⟩ ⟨2024, 1, 1⟩ = 31 ∧
    monthsDiff ⟨2024, 2, 1⟩ ⟨2024, 1, 1⟩ = 1 ∧
    irrbbRowBucket ⟨2024, 2, 1⟩ ⟨2024, 1, 1⟩ = "1-3 bulan" ∧
    bucketIRRBB_get_bucket ⟨2024, 1, 1⟩ ⟨2024, 2, 1⟩ = none :=
  ⟨by decide, by decide, by decide, by decide⟩

/-- **C5 (amended)**: for every (payment_date, reporting_date) pair, both
classifiers assign "≤ 1 bulan" exactly when the day difference is ≤ 30;
otherwise the inline aggregation classifier looks the calendar-month
difference up in the right-closed, lowest-inclusive month-bucket table
(months 1 and 3 → "1-3 bulan", month 4 → "3-6 bulan"); the standalone
`BucketIRRBB.get_bucket` agrees with that table except at month
difference exactly 1, where it returns no label (`NaN`) because its
`pd.cut` call uses the pandas default `include_lowest=False`. -/
theorem c5_irrbb_classifier (pay ref : Date) :
    (irrbbRowBucket pay ref = "≤ 1 bulan" ↔ dayDiff pay ref ≤ 30) ∧
    (bucketIRRBB_get_bucket ref pay = some "≤ 1 bulan" ↔ dayDiff pay ref ≤ 30) ∧
    (30 < dayDiff pay ref →
      irrbbRowBucket pay ref = (cutMonth true (monthsDiff pay ref)).getD "nan") ∧
    (30 < dayDiff pay ref → monthsDiff pay ref ≠ 1 →
      bucketIRRBB_get_bucket ref pay = cutMonth true (monthsDiff pay ref)) ∧
    (30 < dayDiff pay ref → monthsDiff pay ref = 1 →
      irrbbRowBucket pay ref = "1-3 bulan" ∧
        bucketIRRBB_get_bucket ref pay = none) ∧
    cutMonth true 1 = some "1-3 bulan" ∧
    cutMonth true 3 = some "1-3 bulan" ∧
    cutMonth true 4 = some "3-6 bulan" := by
  refine ⟨?_, ?_, ?_, ?_, ?_, by decide, by decide, by decide⟩
  · unfold irrbbRowBucket
    split_ifs with h
    · simp [h]
    · simp only [h, iff_false]
      exact getD_cutMonth_ne true (monthsDiff pay ref)
  · unfold bucketIRRBB_get_bucket
    split_ifs with h
    · simp [h]
    · simp only [h, iff_false]
      exact cutMonth_ne_le1bulan false (monthsDiff pay ref)
  · intro h
    unfold irrbbRowBucket
    rw [if_neg (by omega)]
  · intro h hm
    unfold bucketIRRBB_get_bucket
    rw [if_neg (by omega)]
    exact cutMonth_false_eq_true _ hm
  · intro h hm
    constructor
    · unfold irrbbRowBucket
      rw [if_neg (by omega), hm]
      decide
    · unfold bucketIRRBB_get_bucket
      rw [if_neg (by omega), hm]
      decide

/-- **C5 (witness)**: a payment 45 days after the reference with month
difference 1 — the inline classifier yields "1-3 bulan", the standalone
one yields no label. -/
theorem c5_witness :
    irrbbRowBucket ⟨2024, 2, 24⟩ ⟨2024, 1, 10⟩ = "1-3 bulan" ∧
    bucketIRRBB_get_bucket ⟨2024, 1, 10⟩ ⟨2024, 2, 24⟩ = none :=
  (c5_irrbb_classifier ⟨2024, 2, 24⟩ ⟨2024, 1, 10⟩).2.2.2.2.1
    (by decide) (by decide)

/-- **C6**: for every loan (with a representable reporting date) whose
schedule succeeds, and for each of the three taxonomies, the sum of the
tall bucket values with value mode "total" equals the sum of
principal + interest over all schedule rows exactly; and every row's
bucket label lies in the taxonomy's canonical label set, so the reindex
step drops nothing. -/
theorem c6_tall_total_sum (loan : Loan) (rows : List Row)
    (hvalid : ValidDate loan.reporting_date)
    (h : schedule loan = .ok rows) :
    (get_bucket_irrbb loan "total").map
        (fun out => (out.map (fun x => x.2)).sum) =
      .ok ((rows.map (fun row => row.principal + row.interest)).sum) ∧
    (get_bucket_lcr loan "total").map
        (fun out => (out.map (fun x => x.2)).sum) =
      .ok ((rows.map (fun row => row.principal + row.interest)).sum) ∧
    (get_bucket_nsfr loan "total").map
        (fun out => (out.map (fun x => x.2)).sum) =
      .ok ((rows.map (fun row => row.principal + row.interest)).sum) ∧
    (∀ row ∈ rows,
      irrbbRowBucket row.payment_date loan.reporting_date ∈ irrbbAllLabels ∧
      lcrBucket row.payment_date loan.reporting_date ∈ lcrLabels ∧
      nsfrBucket row.payment_date loan.reporting_date ∈ nsfrLabels) := by
  have hirrcov := schedule_irrbb_cov loan rows hvalid h
  refine ⟨?_, ?_, ?_, fun row hrow => ⟨hirrcov row hrow, lcrBucket_mem _ _,
    nsfrBucket_mem _ _⟩⟩
  · simp only [get_bucket_irrbb, h]
    by_cases hrows : rows = []
    · subst hrows
      simp [Except.map, emptyBucketResult_sum]
    · rw [if_neg hrows]
      simp only [Except.map]
      exact congrArg Except.ok (tall_sum_general irrbbAllLabels rows _
        (by decide) (fun row hrow => hirrcov row hrow) "total" _ valueSelect_total)
  · simp only [get_bucket_lcr, h]
    by_cases hrows : rows = []
    · subst hrows
      simp [Except.map, emptyBucketResult_sum]
    · rw [if_neg hrows]
      simp only [Except.map]
      exact congrArg Except.ok (tall_sum_general lcrLabels rows _
        (by decide) (fun row _ => lcrBucket_mem _ _) "total" _ valueSelect_total)
  · simp only [get_bucket_nsfr, h]
    by_cases hrows : rows = []
    · subst hrows
      simp [Except.map, emptyBucketResult_sum]
    · rw [if_neg hrows]
      simp only [Except.map]
      exact congrArg Except.ok (tall_sum_general nsfrLabels rows _
        (by decide) (fun row _ => nsfrBucket_mem _ _) "total" _ valueSelect_total)

/-- **C6 (witness)**: on the 12-period flat loan each tall taxonomy total
sums to 1 344 000 = 12 × 112 000, the total of all principal + interest. -/
theorem c6_witness :
    (get_bucket_irrbb loanFlat12 "total").map
        (fun out => (out.map (fun x => x.2)).sum) = .ok (1344000 : ℚ) ∧
    (get_bucket_lcr loanFlat12 "total").map
        (fun out => (out.map (fun x => x.2)).sum) = .ok (1344000 : ℚ) ∧
    (get_bucket_nsfr loanFlat12 "total").map
        (fun out => (out.map (fun x => x.2)).sum) = .ok (1344000 : ℚ) := by
  have h : schedule loanFlat12 = .ok
      [⟨1, ⟨2024, 2, 1⟩, 112000, 100000, 12000, 1100000⟩,
       ⟨2, ⟨2024, 3, 1⟩, 112000, 100000, 12000, 1000000⟩,
       ⟨3, ⟨2024, 4, 1⟩, 112000, 100000, 12000, 900000⟩,
       ⟨4, ⟨2024, 5, 1⟩, 112000, 100000, 12000, 800000⟩,
       ⟨5, ⟨2024, 6, 1⟩, 112000, 100000, 12000, 700000⟩,
       ⟨6, ⟨2024, 7, 1⟩, 112000, 100000, 12000, 600000⟩,
       ⟨7, ⟨2024, 8, 1⟩, 112000, 100000, 12000, 500000⟩,
       ⟨8, ⟨2024, 9, 1⟩, 112000, 100000, 12000, 400000⟩,
       ⟨9, ⟨2024, 10, 1⟩, 112000, 100000, 12000, 300000⟩,
       ⟨10, ⟨2024, 11, 1⟩, 112000, 100000, 12000, 200000⟩,
       ⟨11, ⟨2024, 12, 1⟩, 112000, 100000, 12000, 100000⟩,
       ⟨12, ⟨2025, 1, 1⟩, 112000, 100000, 12000, 0⟩] := by decide
  have happ := c6_tall_total_sum loanFlat12 _ (by decide) h
  refine ⟨?_, ?_, ?_⟩
  · rw [happ.1]
    decide
  · rw [happ.2.1]
    decide
  · rw [happ.2.2.1]
    decide

/-- **C7**: for every loan with a non-empty schedule — the flattened
LCR aggregation with value mode "interest" sums only the interest of
rows within 30 days (the ">30D" column is 0); with value mode "total"
it sums principal + interest on "≤30D" rows but principal only on
">30D" rows, so its column total is all principal plus "≤30D" interest
only; the flattened NSFR aggregation with value mode "interest" is 0 in
every bucket; and the tall IRRBB/LCR/NSFR aggregations apply no
zeroing — with value mode "interest" their bucket totals sum to the
plain interest total over all rows. -/
theorem c7_flat_zeroing (loan : Loan) (rows : List Row)
    (hvalid : ValidDate loan.reporting_date)
    (h : schedule loan = .ok rows) (hne : rows ≠ []) :
    get_bucket_lcr_flat loan "interest" = .ok (.flat
      [("≤30D", ((rows.filter (fun row =>
            dayDiff row.payment_date loan.reporting_date ≤ 30)).map
          (fun row => row.interest)).sum),
       (">30D", 0)]) ∧
    get_bucket_lcr_flat loan "total" = .ok (.flat
      [("≤30D", ((rows.filter (fun row =>
            dayDiff row.payment_date loan.reporting_date ≤ 30)).map
          (fun row => row.principal + row.interest)).sum),
       (">30D", ((rows.filter (fun row =>
            ¬ dayDiff row.payment_date loan.reporting_date ≤ 30)).map
          (fun row => row.principal)).sum)]) ∧
    ((rows.filter (fun row =>
          dayDiff row.payment_date loan.reporting_date ≤ 30)).map
        (fun row => row.principal + row.interest)).sum +
      ((rows.filter (fun row =>
          ¬ dayDiff row.payment_date loan.reporting_date ≤ 30)).map
        (fun row => row.principal)).sum =
      (rows.map (fun row => row.principal)).sum +
        ((rows.filter (fun row =>
            dayDiff row.payment_date loan.reporting_date ≤ 30)).map
          (fun row => row.interest)).sum ∧
    get_bucket_nsfr_flat loan "interest" =
      .ok (.flat [("<6M", 0), ("6-12M", 0), (">12M", 0)]) ∧
    (get_bucket_irrbb loan "interest").map
        (fun out => (out.map (fun x => x.2)).sum) =
      .ok ((rows.map (fun row => row.interest)).sum) ∧
    (get_bucket_lcr loan "interest").map
        (fun out => (out.map (fun x => x.2)).sum) =
      .ok ((rows.map (fun row => row.interest)).sum) ∧
    (get_bucket_nsfr loan "interest").map
        (fun out => (out.map (fun x => x.2)).sum) =
      .ok ((rows.map (fun row => row.interest)).sum) := by
  have hfle : rows.filter (fun row =>
        lcrBucket row.payment_date loan.reporting_date = "≤30D") =
      rows.filter (fun row =>
        dayDiff row.payment_date loan.reporting_date ≤ 30) :=
    List.filter_congr (fun row _ =>
      decide_eq_decide.mpr (lcrBucket_le30_iff _ _))
  have hfgt : rows.filter (fun row =>
        lcrBucket row.payment_date loan.reporting_date = ">30D") =
      rows.filter (fun row =>
        ¬ dayDiff row.payment_date loan.reporting_date ≤ 30) :=
    List.filter_congr (fun row _ =>
      decide_eq_decide.mpr (lcrBucket_gt30_iff _ _))
  refine ⟨?_, ?_, ?_, ?_, ?_, ?_, ?_⟩
  · have hform : get_bucket_lcr_flat loan "interest" = .ok (.flat
        (tallAgg lcrLabels (rows.map (fun row =>
          (lcrBucket row.payment_date loan.reporting_date,
            if lcrBucket row.payment_date loan.reporting_date = "≤30D"
            then row.interest else 0))))) := by
      simp only [get_bucket_lcr_flat, h, if_neg hne]
      rfl
    rw [hform]
    have h1 := flat_pairs_sum rows
      (fun row => lcrBucket row.payment_date loan.reporting_date)
      (fun row => if lcrBucket row.payment_date loan.reporting_date = "≤30D"
        then row.interest else 0) "≤30D"
    have h2 := flat_pairs_sum rows
      (fun row => lcrBucket row.payment_date loan.reporting_date)
      (fun row => if lcrBucket row.payment_date loan.reporting_date = "≤30D"
        then row.interest else 0) ">30D"
    have h1v : ((rows.filter (fun row =>
          lcrBucket row.payment_date loan.reporting_date = "≤30D")).map
        (fun row => if lcrBucket row.payment_date loan.reporting_date = "≤30D"
          then row.interest else 0)).sum =
        ((rows.filter (fun row =>
          dayDiff row.payment_date loan.reporting_date ≤ 30)).map
          (fun row => row.interest)).sum := by
      rw [hfle]
      refine congrArg List.sum (List.map_congr_left ?_)
      intro row hrow
      have hd30 := of_decide_eq_true (List.mem_filter.mp hrow).2
      rw [if_pos ((lcrBucket_le30_iff _ _).mpr hd30)]
    have h2v : ((rows.filter (fun row =>
          lcrBucket row.payment_date loan.reporting_date = ">30D")).map
        (fun row => if lcrBucket row.payment_date loan.reporting_date = "≤30D"
          then row.interest else 0)).sum = 0 := by
      apply sum_map_zero_fun
      intro row hrow
      have hbt := of_decide_eq_true (List.mem_filter.mp hrow).2
      rw [if_neg (by rw [hbt]; decide)]
    show Except.ok (BucketFrame.flat
        [("≤30D", _), (">30D", _)]) = _
    rw [h1.trans h1v, h2.trans h2v]
  · have hform : get_bucket_lcr_flat loan "total" = .ok (.flat
        (tallAgg lcrLabels (rows.map (fun row =>
          (lcrBucket row.payment_date loan.reporting_date,
            row.principal +
              (if lcrBucket row.payment_date loan.reporting_date = "≤30D"
              then row.interest else 0)))))) := by
      simp only [get_bucket_lcr_flat, h, if_neg hne]
      rfl
    rw [hform]
    have h1 := flat_pairs_sum rows
      (fun row => lcrBucket row.payment_date loan.reporting_date)
      (fun row => row.principal +
        (if lcrBucket row.payment_date loan.reporting_date = "≤30D"
        then row.interest else 0)) "≤30D"
    have h2 := flat_pairs_sum rows
      (fun row => lcrBucket row.payment_date loan.reporting_date)
      (fun row => row.principal +
        (if lcrBucket row.payment_date loan.reporting_date = "≤30D"
        then row.interest else 0)) ">30D"
    have h1v : ((rows.filter (fun row =>
          lcrBucket row.payment_date loan.reporting_date = "≤30D")).map
        (fun row => row.principal +
          (if lcrBucket row.payment_date loan.reporting_date = "≤30D"
          then row.interest else 0))).sum =
        ((rows.filter (fun row =>
          dayDiff row.payment_date loan.reporting_date ≤ 30)).map
          (fun row => row.principal + row.interest)).sum := by
      rw [hfle]
      refine congrArg List.sum (List.map_congr_left ?_)
      intro row hrow
      have hd30 := of_decide_eq_true (List.mem_filter.mp hrow).2
      rw [if_pos ((lcrBucket_le30_iff _ _).mpr hd30)]
    have h2v : ((rows.filter (fun row =>
          lcrBucket row.payment_date loan.reporting_date = ">30D")).map
        (fun row => row.principal +
          (if lcrBucket row.payment_date loan.reporting_date = "≤30D"
          then row.interest else 0))).sum =
        ((rows.filter (fun row =>
          ¬ dayDiff row.payment_date loan.reporting_date ≤ 30)).map
          (fun row => row.principal)).sum := by
      rw [hfgt]
      refine congrArg List.sum (List.map_congr_left ?_)
      intro row hrow
      have hdgt := of_decide_eq_true (List.mem_filter.mp hrow).2
      rw [if_neg (by
        rw [(lcrBucket_gt30_iff _ _).mpr hdgt]
        decide), add_zero]
    show Except.ok (BucketFrame.flat
        [("≤30D", _), (">30D", _)]) = _
    rw [h1.trans h1v, h2.trans h2v]
  · have hsplit := sum_map_filter_split
      (fun row => decide (dayDiff row.payment_date loan.reporting_date ≤ 30))
      (fun row => row.principal) rows
    have hnot : rows.filter (fun row =>
        !decide (dayDiff row.payment_date loan.reporting_date ≤ 30)) =
      rows.filter (fun row =>
        ¬ dayDiff row.payment_date loan.reporting_date ≤ 30) :=
      List.filter_congr (fun row _ => decide_not.symm)
    rw [hnot] at hsplit
    have hadd : ((rows.filter (fun row =>
          dayDiff row.payment_date loan.reporting_date ≤ 30)).map
        (fun row => row.principal + row.interest)).sum =
      ((rows.filter (fun row =>
          dayDiff row.payment_date loan.reporting_date ≤ 30)).map
        (fun row => row.principal)).sum +
      ((rows.filter (fun row =>
          dayDiff row.payment_date loan.reporting_date ≤ 30)).map
        (fun row => row.interest)).sum := List.sum_map_add
    rw [hadd]
    linarith
  · have hform : get_bucket_nsfr_flat loan "interest" = .ok (.flat
        (tallAgg nsfrLabels (rows.map (fun row =>
          (nsfrBucket row.payment_date loan.reporting_date, (0 : ℚ)))))) := by
      simp only [get_bucket_nsfr_flat, h, if_neg hne]
      rfl
    rw [hform]
    have hz : ∀ lab : String, ((((rows.map (fun row =>
        (nsfrBucket row.payment_date loan.reporting_date, (0 : ℚ))))).filter
        (fun x => x.1 = lab)).map (fun x => x.2)).sum = (0 : ℚ) := by
      intro lab
      rw [flat_pairs_sum rows _ _ lab]
      exact sum_map_zero_fun _ _ (fun x _ => rfl)
    show Except.ok (BucketFrame.flat
        [("<6M", _), ("6-12M", _), (">12M", _)]) = _
    rw [hz "<6M", hz "6-12M", hz ">12M"]
  · simp only [get_bucket_irrbb, h, if_neg hne]
    simp only [Except.map]
    exact congrArg Except.ok (tall_sum_general irrbbAllLabels rows _
      (by decide) (fun row hrow => schedule_irrbb_cov loan rows hvalid h row hrow)
      "interest" _ valueSelect_interest)
  · simp only [get_bucket_lcr, h, if_neg hne]
    simp only [Except.map]
    exact congrArg Except.ok (tall_sum_general lcrLabels rows _
      (by decide) (fun row _ => lcrBucket_mem _ _) "interest" _ valueSelect_interest)
  · simp only [get_bucket_nsfr, h, if_neg hne]
    simp only [Except.map]
    exact congrArg Except.ok (tall_sum_general nsfrLabels rows _
      (by decide) (fun row _ => nsfrBucket_mem _ _) "interest" _ valueSelect_interest)

/-- **C7 (witness)**: on the mixed bullet loan (one payment within 30
days, two beyond), the flattened LCR interest counts only the 10 of the
"≤30D" row, its total counts the ">30D" principal but not the ">30D"
interest, the flattened NSFR interest is all zeros, and the tall LCR
interest keeps the full 30. -/
theorem c7_witness :
    get_bucket_lcr_flat loanMix "interest" =
      .ok (.flat [("≤30D", 10), (">30D", 0)]) ∧
    get_bucket_lcr_flat loanMix "total" =
      .ok (.flat [("≤30D", 10), (">30D", 1000)]) ∧
    get_bucket_nsfr_flat loanMix "interest" =
      .ok (.flat [("<6M", 0), ("6-12M", 0), (">12M", 0)]) ∧
    (get_bucket_lcr loanMix "interest").map
        (fun out => (out.map (fun x => x.2)).sum) = .ok (30 : ℚ) := by
  have h : schedule loanMix = .ok
      [⟨1, ⟨2024, 1, 20⟩, 10, 0, 10, 1000⟩,
       ⟨2, ⟨2024, 2, 20⟩, 10, 0, 10, 1000⟩,
       ⟨3, ⟨2024, 3, 20⟩, 1010, 1000, 10, 0⟩] := by decide
  have happ := c7_flat_zeroing loanMix _ (by decide) h (by decide)
  refine ⟨?_, ?_, happ.2.2.2.1, ?_⟩
  · rw [happ.1]
    decide
  · rw [happ.2.1]
    decide
  · rw [happ.2.2.2.2.2.1]
    decide

/-- **C8 (counterexample)**: for a loan with `end_date ≤ reporting_date`
the flattened LCR bucket operation returns `_empty_bucket_result`, which
is the tall `{bucket, value}`-rows layout mapping both labels to 0 — not
a one-row, one-column-per-label frame as the claim states. -/
theorem c8_counterexample :
    get_bucket_lcr_flat loanPastDue "total" =
      .ok (.tall [("≤30D", 0), (">30D", 0)]) ∧
    (BucketFrame.tall [("≤30D", 0), (">30D", 0)]).isFlat = false :=
  ⟨by decide, by decide⟩

/-- **C8 (amended)**: for every loan with `end_date ≤ reporting_date` and
every value mode, each of the six bucket operations returns the
taxonomy's full canonical label set with every label mapped to 0, always
in the tall `{bucket, value}` layout — including the flattened
operations, whose empty-schedule path returns the tall-shaped
`_empty_bucket_result` rather than a one-row frame. -/
theorem c8_empty_buckets (loan : Loan) (vt : String)
    (hd : dateLeb loan.end_date loan.reporting_date = true) :
    get_bucket_irrbb loan vt = .ok (emptyBucketResult irrbbAllLabels) ∧
    get_bucket_lcr loan vt = .ok (emptyBucketResult lcrLabels) ∧
    get_bucket_nsfr loan vt = .ok (emptyBucketResult nsfrLabels) ∧
    get_bucket_irrbb_flat loan vt = .ok (.tall (emptyBucketResult irrbbAllLabels)) ∧
    get_bucket_lcr_flat loan vt = .ok (.tall (emptyBucketResult lcrLabels)) ∧
    get_bucket_nsfr_flat loan vt = .ok (.tall (emptyBucketResult nsfrLabels)) := by
  have hs := schedule_empty loan hd
  refine ⟨?_, ?_, ?_, ?_, ?_, ?_⟩ <;>
    simp [get_bucket_irrbb, get_bucket_lcr, get_bucket_nsfr,
      get_bucket_irrbb_flat, get_bucket_lcr_flat, get_bucket_nsfr_flat, hs]

/-- **C8 (witness)**: the amended behavior at a concrete past-due loan. -/
theorem c8_witness :
    get_bucket_lcr_flat loanPastDue "principal" =
      .ok (.tall (emptyBucketResult lcrLabels)) ∧
    get_bucket_nsfr_flat loanPastDue "principal" =
      .ok (.tall (emptyBucketResult nsfrLabels)) ∧
    get_bucket_irrbb loanPastDue "principal" =
      .ok (emptyBucketResult irrbbAllLabels) :=
  ⟨(c8_empty_buckets loanPastDue "principal" (by decide)).2.2.2.2.1,
   (c8_empty_buckets loanPastDue "principal" (by decide)).2.2.2.2.2,
   (c8_empty_buckets loanPastDue "principal" (by decide)).1⟩

/-- **C9**: on the live path (`end_date > reporting_date`) the schedule
fails with `InvalidMethod` exactly when installment is "yes" and method
is outside {"annuity", "flat"}, and with `InvalidInstallmentFlag`
exactly when installment is outside {"yes", "no"} (comparisons on the
lower-cased fields, as in the source); and for `end_date ≤
reporting_date` it never fails and yields the empty schedule. -/
theorem c9_error_conditions (loan : Loan) :
    (dateLeb loan.end_date loan.reporting_date = true →
      schedule loan = .ok []) ∧
    (dateLeb loan.end_date loan.reporting_date = false →
      (schedule loan = .error ScheduleError.invalidMethod ↔
        strToLower loan.installment = "yes" ∧
          strToLower loan.method ≠ "annuity" ∧ strToLower loan.method ≠ "flat")) ∧
    (dateLeb loan.end_date loan.reporting_date = false →
      (schedule loan = .error ScheduleError.invalidInstallmentFlag ↔
        strToLower loan.installment ≠ "yes" ∧ strToLower loan.installment ≠ "no")) := by
  refine ⟨fun hd => schedule_empty loan hd, fun hd => ?_, fun hd => ?_⟩
  · by_cases hno : strToLower loan.installment = "no"
    · rw [schedule_bullet loan hd hno]
      simp [hno]
    · by_cases hyes : strToLower loan.installment = "yes"
      · by_cases hann : strToLower loan.method = "annuity"
        · rw [schedule_annuity loan hd hyes hann]
          simp [hann]
        · by_cases hflat : strToLower loan.method = "flat"
          · rw [schedule_flat loan hd hyes hflat]
            simp [hflat]
          · rw [show schedule loan = .error ScheduleError.invalidMethod from by
              simp [schedule, hd, hno, hyes, hann, hflat]]
            simp [hyes, hann, hflat]
      · rw [show schedule loan = .error ScheduleError.invalidInstallmentFlag from by
          simp [schedule, hd, hno, hyes]]
        simp [hyes]
  · by_cases hno : strToLower loan.installment = "no"
    · rw [schedule_bullet loan hd hno]
      simp [hno]
    · by_cases hyes : strToLower loan.installment = "yes"
      · by_cases hann : strToLower loan.method = "annuity"
        · rw [schedule_annuity loan hd hyes hann]
          simp [hyes]
        · by_cases hflat : strToLower loan.method = "flat"
          · rw [schedule_flat loan hd hyes hflat]
            simp [hyes]
          · rw [show schedule loan = .error ScheduleError.invalidMethod from by
              simp [schedule, hd, hno, hyes, hann, hflat]]
            simp [hyes]
      · rw [show schedule loan = .error ScheduleError.invalidInstallmentFlag from by
          simp [schedule, hd, hno, hyes]]
        simp [hno, hyes]

/-- **C9 (witness)**: a live loan with method "bogus" fails with
`InvalidMethod`; a past-due loan with invalid enums returns the empty
schedule without failing. -/
theorem c9_witness :
    schedule loanBadMethod = .error ScheduleError.invalidMethod ∧
    schedule loanPastDue = .ok [] :=
  ⟨((c9_error_conditions loanBadMethod).2.1 (by decide)).mpr
      ⟨by decide, by decide, by decide⟩,
   (c9_error_conditions loanPastDue).1 (by decide)⟩

/-- **C10**: the empty-date-range check runs before enum validation, so
any loan with `end_date ≤ reporting_date` yields the empty schedule even
with invalid installment/method strings; and because both enums are
lower-cased before comparison, any strings lower-casing to "no", or to
"yes" with a method lower-casing to "annuity" or "flat" (e.g. "YES" /
"Annuity"), are accepted on the live path. -/
theorem c10_validation_order (loan : Loan) :
    (dateLeb loan.end_date loan.reporting_date = true →
      schedule loan = .ok []) ∧
    (dateLeb loan.end_date loan.reporting_date = false →
      strToLower loan.installment = "no" → ∃ rows, schedule loan = .ok rows) ∧
    (dateLeb loan.end_date loan.reporting_date = false →
      strToLower loan.installment = "yes" →
      strToLower loan.method = "annuity" ∨ strToLower loan.method = "flat" →
      ∃ rows, schedule loan = .ok rows) := by
  refine ⟨fun hd => schedule_empty loan hd,
    fun hd hno => ⟨_, schedule_bullet loan hd hno⟩,
    fun hd hyes hm => ?_⟩
  rcases hm with hann | hflat
  · exact ⟨_, schedule_annuity loan hd hyes hann⟩
  · exact ⟨_, schedule_flat loan hd hyes hflat⟩

/-- **C10 (witness)**: `installment="maybe"`, `method="foo"` with
`end_date = reporting_date` yields the empty schedule without an error,
and `installment="YES"`, `method="Annuity"` is accepted on a live loan. -/
theorem c10_witness :
    schedule loanPastDue = .ok [] ∧
    (∃ rows, schedule loanMixedCase = .ok rows) :=
  ⟨(c10_validation_order loanPastDue).1 (by decide),
   (c10_validation_order loanMixedCase).2.2 (by decide) (by decide)
    (Or.inl (by decide))⟩

end BB
